import Mathlib

/-!
# Verification of the receipt-parsing / identifier-extraction / party-matching core

This file is a shallow embedding, in Lean 4, of the core pipeline of the
`suspense.durgadawaghar.com` repository:

* the receipt-book **Parser** (`internal/parser`): a line-oriented state machine
  recovering transactions from free-form ledger text,
* the **Identifier Extractor** (`internal/extractor`): a battery of pattern
  rules pulling payment identifiers out of narration text,
* the **Party Matcher** (`internal/matcher`): the confidence-scoring engine.

Modelling conventions:

* Go strings are modelled as `List Char` (`Str`).  All inputs relevant to the
  verified properties are ASCII, so byte- versus rune-level distinctions of Go
  do not arise; `Char.toUpper` agrees with Go's `strings.ToUpper` on ASCII.
* Go's `regexp` package implements leftmost-first (Perl-style, non-POSIX)
  matching: among matches starting at the leftmost possible position it returns
  the one a backtracking search finds first.  The engine below *is* that
  backtracking search, written with explicit fuel to make it structurally
  total; the fuel is sized generously and only concrete, short subject strings
  are ever evaluated.
* Go `float64` arithmetic of the matcher is modelled over `ℚ` (exact
  arithmetic); `math.Log10` is not exactly representable and is therefore
  passed as an explicit function parameter, constrained only by properties
  that the real `log10` enjoys on the relevant range.
* Database / collaborator calls of the matcher are modelled as explicit
  function-valued fields of a `Queries` structure returning `Except Unit`,
  mirroring Go's `(value, error)` returns.
-/

namespace S2P

/-- Go strings, modelled as lists of characters. -/
abbrev Str := List Char

/-- Whitespace as recognized by Go's `unicode.IsSpace` on ASCII input
(`strings.TrimSpace`, `strings.Fields` use this). -/
def isSpaceGo (c : Char) : Bool :=
  c = ' ' || c = '\t' || c = '\n' || c = '\x0b' || c = '\x0c' || c = '\r'

/-- Go `strings.ToUpper` (ASCII fragment). -/
def toUpperStr (s : Str) : Str := s.map Char.toUpper

/-- Go `strings.TrimSpace`. -/
def trimSpace (s : Str) : Str :=
  ((s.dropWhile isSpaceGo).reverse.dropWhile isSpaceGo).reverse

/-- Does `pat` occur as a prefix of `s`?  Go `strings.HasPrefix s pat`. -/
def strStarts : Str → Str → Bool
  | [], _ => true
  | _ :: _, [] => false
  | p :: ps, c :: cs => p = c && strStarts ps cs

/-- Does `pat` occur as a suffix of `s`?  Go `strings.HasSuffix s pat`. -/
def strEnds (pat s : Str) : Bool := strStarts pat.reverse s.reverse

/-- Go `strings.Contains s pat`. -/
def strContains : Str → Str → Bool
  | s, pat =>
    match s with
    | [] => strStarts pat []
    | _ :: rest => strStarts pat s || strContains rest pat

/-- Go `strings.TrimPrefix s pat` (removes one leading occurrence). -/
def trimLeading (pat s : Str) : Str :=
  if strStarts pat s then s.drop pat.length else s

/-- Go `strings.TrimSuffix s pat` (removes one trailing occurrence). -/
def trimTrailing (pat s : Str) : Str :=
  if strEnds pat s then s.take (s.length - pat.length) else s

/-- Go `strings.Fields`: split around runs of whitespace, dropping empties. -/
def fieldsStr (s : Str) : List Str :=
  (s.splitOnP isSpaceGo).filter (fun w => !w.isEmpty)

/-- Go `strings.Join xs sep` for a single-space separator and friends. -/
def joinWith (sep : Str) (xs : List Str) : Str := List.intercalate sep xs

/-- Go `strings.Split text sep` for a one-character separator. -/
def splitChar (sep : Char) (s : Str) : List Str := s.splitOn sep

/-- Digits-to-number (`strconv.Atoi` on the all-digit strings the code feeds it). -/
def digitsToNat (s : Str) : Nat :=
  s.foldl (fun acc c => acc * 10 + (c.toNat - '0'.toNat)) 0

/-- Decimal amount strings of the shape `\d+(\.\d{2})?`, as an exact rational.
(The Go code uses `strconv.ParseFloat`; no verified property compares amounts,
so the float64 rounding of the original is irrelevant and exact rationals are
used.) -/
def parseAmountQ (s : Str) : ℚ :=
  match splitChar '.' s with
  | [a] => (digitsToNat a : ℚ)
  | [a, b] => (digitsToNat a : ℚ) + (digitsToNat b : ℚ) / 100
  | _ => 0

/-! ## A small regular-expression engine

Character classes are predicates; `repc r lo hi lz` is the counted repetition
`r{lo,hi}` (`hi = none` meaning unbounded), lazy when `lz` is true.  `bol`/`eol`
are `^`/`$` (Go semantics without `(?m)`: begin/end of the whole text).
Matching is continuation-passing backtracking, which is exactly Go's
leftmost-first semantics; the `fuel` argument only forces structural
termination and is sized generously at every call site. -/

inductive RE where
  | eps : RE
  | cls (p : Char → Bool) : RE
  | cat (r1 r2 : RE) : RE
  | alt (r1 r2 : RE) : RE
  | repc (r : RE) (lo : Nat) (hi : Option Nat) (lz : Bool) : RE
  | group (n : Nat) (r : RE) : RE
  | bol : RE
  | eol : RE

/-- Captured group spans: (group number, start, end) — head entry wins,
mirroring "last iteration's capture wins" of Go. -/
abbrev Caps := List (Nat × Nat × Nat)

/-- The backtracking matcher.  `i` is the absolute position in the subject,
`rest` the subject's suffix from `i`, `k` the continuation. -/
def mrun : Nat → RE → Nat → Str → Caps →
    (Nat → Str → Caps → Option (Nat × Caps)) → Option (Nat × Caps)
  | 0, _, _, _, _, _ => none
  | fuel + 1, re, i, rest, caps, k =>
    match re with
    | .eps => k i rest caps
    | .cls p =>
      match rest with
      | [] => none
      | c :: rest' => if p c then k (i + 1) rest' caps else none
    | .cat r1 r2 =>
      mrun fuel r1 i rest caps (fun j rest' caps' => mrun fuel r2 j rest' caps' k)
    | .alt r1 r2 =>
      match mrun fuel r1 i rest caps k with
      | some res => some res
      | none => mrun fuel r2 i rest caps k
    | .repc r lo hi lz =>
      match lo with
      | lo' + 1 =>
        mrun fuel r i rest caps (fun j rest' caps' =>
          mrun fuel (.repc r lo' (hi.map Nat.pred) lz) j rest' caps' k)
      | 0 =>
        match hi with
        | some 0 => k i rest caps
        | _ =>
          if lz then
            match k i rest caps with
            | some res => some res
            | none =>
              mrun fuel r i rest caps (fun j rest' caps' =>
                if j = i then none
                else mrun fuel (.repc r 0 (hi.map Nat.pred) lz) j rest' caps' k)
          else
            match mrun fuel r i rest caps (fun j rest' caps' =>
              if j = i then none
              else mrun fuel (.repc r 0 (hi.map Nat.pred) lz) j rest' caps' k) with
            | some res => some res
            | none => k i rest caps
    | .group n r =>
      mrun fuel r i rest caps (fun j rest' caps' => k j rest' ((n, i, j) :: caps'))
    | .bol => if i = 0 then k i rest caps else none
    | .eol => if rest.isEmpty then k i rest caps else none

/-- Fuel bound used for all matching; generous for the short subjects evaluated. -/
def fuelFor (s : Str) : Nat := 40000 + 400 * s.length

/-- Try to match `re` at absolute position `i` of `s`; returns end position and captures. -/
def matchAt (re : RE) (s : Str) (i : Nat) : Option (Nat × Caps) :=
  mrun (fuelFor s) re i (s.drop i) [] (fun j _ caps => some (j, caps))

/-- Leftmost match at or after position `i` (`count` counts down remaining positions). -/
def reFindAux (re : RE) (s : Str) : Nat → Nat → Option (Nat × Nat × Caps)
  | 0, _ => none
  | count + 1, i =>
    match matchAt re s i with
    | some (e, caps) => some (i, e, caps)
    | none => reFindAux re s count (i + 1)

/-- Go `Regexp.FindStringSubmatchIndex`-style leftmost search. -/
def reFind (re : RE) (s : Str) : Option (Nat × Nat × Caps) :=
  reFindAux re s (s.length + 1) 0

/-- Go `Regexp.MatchString`. -/
def reMatchB (re : RE) (s : Str) : Bool := (reFind re s).isSome

/-- Substring by absolute positions. -/
def sliceStr (s : Str) (a b : Nat) : Str := (s.drop a).take (b - a)

/-- The value of capture group `n` (Go returns `""` for an unused group). -/
def capGet (s : Str) (caps : Caps) (n : Nat) : Str :=
  match caps.find? (fun t => t.1 = n) with
  | some (_, a, b) => sliceStr s a b
  | none => []

/-- All non-overlapping leftmost matches (Go `FindAllStringSubmatch` with
limit -1): after a match ending at `e`, scanning resumes at `e` (or one
further on an empty match; no pattern in this file can match empty). -/
def reFindAllAux (re : RE) (s : Str) : Nat → Nat → List (Nat × Nat × Caps)
  | 0, _ => []
  | fuel + 1, i =>
    if i > s.length then []
    else
      match reFindAux re s (s.length + 1 - i) i with
      | none => []
      | some (st, e, caps) =>
        (st, e, caps) :: reFindAllAux re s fuel (if st < e then e else st + 1)

/-- Go `Regexp.FindAllStringSubmatch re s -1`. -/
def reFindAll (re : RE) (s : Str) : List (Nat × Nat × Caps) :=
  reFindAllAux re s (s.length + 1) 0

/-- Go `Regexp.ReplaceAllString re s ""` (the code only ever replaces by the
empty string): delete every non-overlapping leftmost match. -/
def reDeleteAux (re : RE) (s : Str) : Nat → Nat → Str
  | 0, i => s.drop i
  | fuel + 1, i =>
    match reFindAux re s (s.length + 1 - i) i with
    | none => s.drop i
    | some (st, e, _) =>
      if st < e then sliceStr s i st ++ reDeleteAux re s fuel e
      else if st < s.length then
        sliceStr s i (st + 1) ++ reDeleteAux re s fuel (st + 1)
      else sliceStr s i st

/-- Delete all matches of `re` from `s`. -/
def reDeleteAll (re : RE) (s : Str) : Str := reDeleteAux re s (s.length + 1) 0

/-! ### Character classes and pattern combinators -/

/-- Class `\d`. -/
def cDigit (c : Char) : Bool := c.isDigit

/-- Class `[^\d]`. -/
def cNonDigit (c : Char) : Bool := !c.isDigit

/-- Class `[A-Z]`. -/
def cUpper (c : Char) : Bool := decide ('A' ≤ c) && decide (c ≤ 'Z')

/-- Class `[a-z]`. -/
def cLower (c : Char) : Bool := decide ('a' ≤ c) && decide (c ≤ 'z')

/-- Class `[a-zA-Z]`. -/
def cAlpha (c : Char) : Bool := cUpper c || cLower c

/-- Class `[a-zA-Z0-9]`. -/
def cAlnum (c : Char) : Bool := cAlpha c || cDigit c

/-- Class `\s` as defined by RE2 (Go regexp): `[\t\n\f\r ]`. -/
def cWS (c : Char) : Bool :=
  c = ' ' || c = '\t' || c = '\n' || c = '\x0c' || c = '\r'

/-- Class `.` (any character but newline, Go default). -/
def cDot (c : Char) : Bool := c ≠ '\n'

/-- A single literal character. -/
def RE.chr (c : Char) : RE := .cls (fun x => x = c)

/-- A single literal character, case-insensitively (for `(?i)` patterns). -/
def RE.chrCI (c : Char) : RE := .cls (fun x => x.toUpper = c.toUpper)

/-- A literal string. -/
def RE.lit (s : Str) : RE := s.foldr (fun c acc => .cat (.chr c) acc) .eps

/-- A literal string under `(?i)`. -/
def RE.litCI (s : Str) : RE := s.foldr (fun c acc => .cat (.chrCI c) acc) .eps

/-- Concatenation of a list of regexes. -/
def RE.seq (rs : List RE) : RE := rs.foldr .cat .eps

/-- Alternation of a non-empty list of regexes (left-to-right preference). -/
def RE.alts : List RE → RE
  | [] => .eps
  | [r] => r
  | r :: rs => .alt r (RE.alts rs)

/-- Greedy `r*`. -/
def RE.star (r : RE) : RE := .repc r 0 none false

/-- Greedy `r+`. -/
def RE.plus (r : RE) : RE := .repc r 1 none false

/-- Greedy `r?`. -/
def RE.opt (r : RE) : RE := .repc r 0 (some 1) false

/-- Greedy `r{n}`. -/
def RE.rexact (r : RE) (n : Nat) : RE := .repc r n (some n) false

/-- Greedy `r{lo,hi}`. -/
def RE.rbetween (r : RE) (lo hi : Nat) : RE := .repc r lo (some hi) false

/-- Lazy `r+?`. -/
def RE.plusLazy (r : RE) : RE := .repc r 1 none true

/-! ## Receipt Parser (`internal/parser`, current revision)

Each `RE` definition below carries the Go regular expression it transcribes in
its doc comment; the transcription is structural (alternation, classes,
counted repetition, anchors map one-to-one). -/

/-- Dates as built by Go `time.Date(year, month, day, 0,0,0,0, UTC)`.  The
normalization `time.Date` performs on out-of-range components is not modelled;
no verified property constructs an out-of-range date. -/
structure GoDate where
  year : Int
  month : Nat
  day : Nat
deriving DecidableEq, Repr

/-- Go `parser.Transaction`. -/
structure Transaction where
  date : GoDate
  partyName : Str
  location : Str
  amount : ℚ
  narration : Str
  paymentMode : Str
deriving DecidableEq, Repr

/-- The twelve month abbreviations of `datePattern`, in source order. -/
def monthNames : List Str :=
  [ "Jan".data, "Feb".data, "Mar".data, "Apr".data, "May".data, "Jun".data,
    "Jul".data, "Aug".data, "Sep".data, "Oct".data, "Nov".data, "Dec".data]

/-- Go `monthMap`: month abbreviation to month number (1–12); 0 for
anything else (the zero `time.Month`, unreachable: `datePattern` guarantees
a valid abbreviation). -/
def monthMap (s : Str) : Nat :=
  match (monthNames.indexOf s : Nat) with
  | 12 => 0
  | i => i + 1

/-- Go: regexp `^(Jan|Feb|Mar|Apr|May|Jun|Jul|Aug|Sep|Oct|Nov|Dec)\s+(\d{1,2})\s+`. -/
def datePattern : RE :=
  .seq [.bol, .group 1 (RE.alts (monthNames.map RE.lit)), RE.plus (.cls cWS),
        .group 2 (RE.rbetween (.cls cDigit) 1 2), RE.plus (.cls cWS)]

/-- Go: regexp `(\d+(?:\.\d{2})?)\s*$`. -/
def amountPattern : RE :=
  .seq [.group 1 (.cat (RE.plus (.cls cDigit))
          (RE.opt (.cat (RE.chr '.') (RE.rexact (.cls cDigit) 2)))),
        RE.star (.cls cWS), .eol]

/-- The bank-name alternation of `bankAccountPattern`, in source order. -/
def bankAltNames : List Str :=
  [ "ICICI".data, "HDFC".data, "SBI".data, "PNB".data, "AXIS".data,
    "KOTAK".data, "YES".data, "IDBI".data, "CANARA".data, "BOI".data,
    "BOB".data, "IDFC".data, "UNION".data, "INDIAN".data, "UCO".data,
    "CENTRAL".data, "PUNJAB".data, "BARODA".data, "ALLAHABAD".data,
    "ANDHRA".data, "BANK".data, "STATE".data]

/-- Class `[\d,.]`. -/
def cDigitCommaDot (c : Char) : Bool := cDigit c || c = ',' || c = '.'

/-- Go: regexp `^(?i)(ICICI|HDFC|SBI|PNB|AXIS|KOTAK|YES|IDBI|CANARA|BOI|BOB|IDFC|UNION|INDIAN|UCO|CENTRAL|PUNJAB|BARODA|ALLAHABAD|ANDHRA|BANK|STATE)\s+\d+\s+[\d,.]+`. -/
def bankAccountPattern : RE :=
  .seq [.bol, .group 1 (RE.alts (bankAltNames.map RE.litCI)), RE.plus (.cls cWS),
        RE.plus (.cls cDigit), RE.plus (.cls cWS), RE.plus (.cls cDigitCommaDot)]

/-- Go `skipPatterns`, in source order:
`(?i)^SUB\s+TOTAL`, `(?i)\.\.\.Continued`, `(?i)^SUSPENSE\s+A/C`, `(?i)^\s*$`,
`^-+$`, `(?i)^TOTAL\s+[\d,.]+\s+[\d,.]+$`, `(?i)^\*\*\*.*\*\*\*$`,
`(?i)^DATE\s+PARTICULARS\s+DEBIT\s+CREDIT`, `(?i)^RECEIPT\s+BOOK`,
`(?i)^DURGA\s+DAWA\s+GHAR`, `(?i)^\d{2}-\d{2}-\d{4}\s+-\s+\d{2}-\d{2}-\d{4}$`,
`(?i)^E-Mail\s*:`, `(?i)^D\.?L\.?\s*No\.?\s*:`, `(?i)^GSTIN\s*:`, `(?i)^\d+/\d+,`. -/
def skipPatterns : List RE :=
  [ .seq [.bol, RE.litCI ("SUB".data), RE.plus (.cls cWS), RE.litCI ("TOTAL".data)],
    RE.litCI ("...Continued".data),
    .seq [.bol, RE.litCI ("SUSPENSE".data), RE.plus (.cls cWS), RE.litCI ("A/C".data)],
    .seq [.bol, RE.star (.cls cWS), .eol],
    .seq [.bol, RE.plus (RE.chr '-'), .eol],
    .seq [.bol, RE.litCI ("TOTAL".data), RE.plus (.cls cWS), RE.plus (.cls cDigitCommaDot),
          RE.plus (.cls cWS), RE.plus (.cls cDigitCommaDot), .eol],
    .seq [.bol, RE.lit ("***".data), RE.star (.cls cDot), RE.lit ("***".data), .eol],
    .seq [.bol, RE.litCI ("DATE".data), RE.plus (.cls cWS), RE.litCI ("PARTICULARS".data),
          RE.plus (.cls cWS), RE.litCI ("DEBIT".data), RE.plus (.cls cWS),
          RE.litCI ("CREDIT".data)],
    .seq [.bol, RE.litCI ("RECEIPT".data), RE.plus (.cls cWS), RE.litCI ("BOOK".data)],
    .seq [.bol, RE.litCI ("DURGA".data), RE.plus (.cls cWS), RE.litCI ("DAWA".data),
          RE.plus (.cls cWS), RE.litCI ("GHAR".data)],
    .seq [.bol, RE.rexact (.cls cDigit) 2, RE.chr '-', RE.rexact (.cls cDigit) 2,
          RE.chr '-', RE.rexact (.cls cDigit) 4, RE.plus (.cls cWS), RE.chr '-',
          RE.plus (.cls cWS), RE.rexact (.cls cDigit) 2, RE.chr '-',
          RE.rexact (.cls cDigit) 2, RE.chr '-', RE.rexact (.cls cDigit) 4, .eol],
    .seq [.bol, RE.litCI ("E-Mail".data), RE.star (.cls cWS), RE.chr ':'],
    .seq [.bol, RE.chrCI 'D', RE.opt (RE.chr '.'), RE.chrCI 'L', RE.opt (RE.chr '.'),
          RE.star (.cls cWS), RE.litCI ("No".data), RE.opt (RE.chr '.'),
          RE.star (.cls cWS), RE.chr ':'],
    .seq [.bol, RE.litCI ("GSTIN".data), RE.star (.cls cWS), RE.chr ':'],
    .seq [.bol, RE.plus (.cls cDigit), RE.chr '/', RE.plus (.cls cDigit), RE.chr ',']]

/-- Go: regexp `(?i)^UPI/|/UPI/|/UPI$|\sUPI/`. -/
def upiModePattern : RE :=
  RE.alts [.cat .bol (RE.litCI ("UPI/".data)), RE.litCI ("/UPI/".data),
           .cat (RE.litCI ("/UPI".data)) .eol, .cat (.cls cWS) (RE.litCI ("UPI/".data))]

/-- Go: regexp `(?i)IMPS/|/IMPS/|MMT/IMPS`. -/
def impsModePattern : RE :=
  RE.alts [RE.litCI ("IMPS/".data), RE.litCI ("/IMPS/".data), RE.litCI ("MMT/IMPS".data)]

/-- Go: regexp `(?i)\sNEFT-|^NEFT-`. -/
def neftModePattern : RE :=
  RE.alts [.cat (.cls cWS) (RE.litCI ("NEFT-".data)), .cat .bol (RE.litCI ("NEFT-".data))]

/-- Go: regexp `(?i)\sRTGS-|^RTGS-`. -/
def rtgsModePattern : RE :=
  RE.alts [.cat (.cls cWS) (RE.litCI ("RTGS-".data)), .cat .bol (RE.litCI ("RTGS-".data))]

/-- Go: regexp `(?i)\sCLG/|^CLG/`. -/
def clgModePattern : RE :=
  RE.alts [.cat (.cls cWS) (RE.litCI ("CLG/".data)), .cat .bol (RE.litCI ("CLG/".data))]

/-- Go: regexp `(?i)\sINF/|^INF/|^INFT/|/INFT/|\sINFT/`. -/
def infModePattern : RE :=
  RE.alts [.cat (.cls cWS) (RE.litCI ("INF/".data)), .cat .bol (RE.litCI ("INF/".data)),
           .cat .bol (RE.litCI ("INFT/".data)), RE.litCI ("/INFT/".data),
           .cat (.cls cWS) (RE.litCI ("INFT/".data))]

/-- Go: regexp `(?i)Chq\.|Cheque|CHQ`. -/
def chqModePattern : RE :=
  RE.alts [RE.litCI ("Chq.".data), RE.litCI ("Cheque".data), RE.litCI ("CHQ".data)]

/-- Go: regexp `(?i)FT-MESPOS|MESPOS\s+SET|POS\s+MACHINE`. -/
def posModePattern : RE :=
  RE.alts [RE.litCI ("FT-MESPOS".data),
           .seq [RE.litCI ("MESPOS".data), RE.plus (.cls cWS), RE.litCI ("SET".data)],
           .seq [RE.litCI ("POS".data), RE.plus (.cls cWS), RE.litCI ("MACHINE".data)]]

/-- Go: regexp `(?i)^BY\s+CASH|\sBY\s+CASH|CASH\s+DEP|CAM/`. -/
def cashModePattern : RE :=
  RE.alts [.seq [.bol, RE.litCI ("BY".data), RE.plus (.cls cWS), RE.litCI ("CASH".data)],
           .seq [.cls cWS, RE.litCI ("BY".data), RE.plus (.cls cWS), RE.litCI ("CASH".data)],
           .seq [RE.litCI ("CASH".data), RE.plus (.cls cWS), RE.litCI ("DEP".data)],
           RE.litCI ("CAM/".data)]

/-- Go: regexp `\s*Ag\.\s*.*$` (case-sensitive). -/
def invoiceRefPattern : RE :=
  .seq [RE.star (.cls cWS), RE.lit ("Ag.".data), RE.star (.cls cWS),
        RE.star (.cls cDot), .eol]

/-- The suspense-account marker tested by `Parse`. -/
def suspenseMarker : Str := "SUSPENSE A/C".data

/-- Go `parser.shouldSkipLine`. -/
def shouldSkipLine (line : Str) : Bool :=
  line.isEmpty || skipPatterns.any (fun p => reMatchB p line)

/-- Words that must not be treated as a location (`nonLocationWords`). -/
def nonLocationWords : List Str :=
  [ "BUSINESS".data, "MACHINE".data, "STORE".data, "AGENCY".data,
    "TRADERS".data, "PHARMA".data, "CHEMIST".data, "MEDICOS".data,
    "MEDICAL".data, "DRUG".data, "HOUSE".data, "HALL".data,
    "CENTRE".data, "CENTER".data]

/-- The gazetteer of known place names (`locationIndicators`), in source order. -/
def locationIndicators : List Str :=
  [ "DELHI".data, "MUMBAI".data, "KOLKATA".data, "CHENNAI".data, "BANGALORE".data,
    "HYDERABAD".data, "AHMEDABAD".data, "PUNE".data, "SURAT".data, "JAIPUR".data,
    "LUCKNOW".data, "KANPUR".data, "NAGPUR".data, "INDORE".data, "THANE".data,
    "BHOPAL".data, "PATNA".data, "VADODARA".data, "GHAZIABAD".data, "LUDHIANA".data,
    "AGRA".data, "NASHIK".data, "FARIDABAD".data, "MEERUT".data, "RAJKOT".data,
    "VARANASI".data, "SRINAGAR".data, "AURANGABAD".data, "DHANBAD".data,
    "AMRITSAR".data, "JODHPUR".data, "RAIPUR".data, "RANCHI".data, "GWALIOR".data,
    "CHANDIGARH".data, "VIJAYAWADA".data, "MADURAI".data, "COIMBATORE".data,
    "KOCHI".data, "GUWAHATI".data, "BHUBANESWAR".data, "DEHRADUN".data,
    "NOIDA".data, "GURUGRAM".data, "GURGAON".data, "NCR".data, "GWALIOUR".data,
    "SEKHREJ".data, "SHAMBHUA".data, "MUSKRA".data, "BILLHAUR".data,
    "RASULABAD".data, "MUNGISAPUR".data, "JUNIHA".data, "MAHARAMAU".data,
    "AKBARPUR".data, "AKABARPUR".data, "CHIBRAMAU".data, "DHAURA".data,
    "CHAMIYANI".data, "CHAUDAGRA".data, "BARAUR".data, "INDERGAR".data,
    "GHATAMPUR".data, "BITHOOR".data, "BIGHAPUR".data, "BAIRAGIHAR".data,
    "SIKANDRA".data, "ACHALGANJ".data, "PUKHRAYA".data, "PUKHRAYAN".data,
    "DIBIAPUR".data, "DIBIYAPUR".data, "MIYAGANJ".data, "AURAIYA".data,
    "LALITPUR".data, "MAKANPUR".data, "RAATH".data, "KHAKHRERU".data,
    "SAHAYAL".data, "CHANI".data, "SAJETI".data, "BASIRAT".data, "JALLAUN".data,
    "BANGARMAU".data, "ALIYAPUR".data, "TIRWA".data, "BAKEWAR".data,
    "BHAUTY".data, "KANNOUJ".data, "KONCH".data, "NAWABGANJ".data,
    "FATEHPUR".data, "ORAI".data, "HARDOI".data, "UNNAO".data, "SITAPUR".data,
    "ETAWAH".data, "BANDA".data, "JHANSI".data, "HAMEERPUR".data, "BHEWAN".data,
    "NABIPUR".data, "TISTI".data, "UMARDA".data, "TALEGRAM".data, "KENJARI".data,
    "KENJARY".data, "JHIJHAK".data, "HASEERAN".data, "SHIVRAJPUR".data,
    "BAHOSI".data, "KUDANY".data, "VISHDHAN".data, "KAKVAN".data, "MAUDAHA".data,
    "JAHANABAD".data, "MURADIPUR".data, "PARSAULI".data, "AJGAIN".data,
    "RAMAIPUR".data, "DHANI".data, "BARUA".data, "SAHAR".data, "KHAJUA".data,
    "BARUA".data, "FARRUKHABAD".data, "LAKHIMPUR".data, "GONDA".data,
    "SHIVLI".data, "MANIMAU".data, "ROORA".data, "ROOMA".data, "RANIA".data,
    "NOONARI".data, "NARWAL".data, "TIKRA".data, "BHARUA".data,
    "CHHIBRAMAU".data, "FAZALGANJ".data, "KALYANPUR".data, "KALYAN".data,
    "KAKADEV".data, "BIRHANA".data, "MANISHA".data, "SUMER".data,
    "BEEGAHPUR".data, "HASWA".data, "SIRATHU".data, "VIJAIPUR".data,
    "ATARDHANI".data, "MAURANIPUR".data, "SACHENDI".data, "BITHHOR".data,
    "BARAIGHAR".data, "HAPUR".data, "GEHLO".data, "DEHAT".data,
    "NAUBASTA".data, "PANKI".data, "BHAGHPUR".data, "NARAMAU".data,
    "THATHIA".data, "REWARI".data, "BAIRAMPUR".data, "GALUAPUR".data,
    "SAROSI".data, "AGAUS".data, "PATARA".data, "BANIPARA".data,
    "MAQSUDABAD".data, "TIGAI".data, "HAIDRABAD".data, "KHEDA".data,
    "ALLIPUR".data, "ASHOTHAR".data, "THARIYAOAN".data, "SIMRI".data,
    "CHAURA".data, "CHOWKI".data, "CHHILLA".data, "SAHLI".data,
    "SAKURABAD".data, "SUMRAHA".data, "MURADAB".data, "GURSHAYAN".data,
    "BARADEVI".data, "BARRA".data, "PATARSA".data, "KHAGA".data,
    "KORIYAN".data, "BHOGNIPUR".data, "RAJPUR".data, "SAHJHANPUR".data]

/-- Is `w` all characters `A`–`Z` (the `isAlpha` loop of
`parsePartyNameLocation`, run on the upper-cased last word)? -/
def allUpperAZ (w : Str) : Bool := w.all cUpper

/-- The split returned when the last word is taken as the location. -/
def splitAtLast (words : List Str) : Str × Str :=
  (joinWith [' '] words.dropLast, (words.getLast?).getD [])

/-- The gazetteer `for` loop of `parsePartyNameLocation`: first entry that is
a prefix of (or equal to) the upper-cased last word, provided the input has
more than one word, returns the split; otherwise the scan continues. -/
def gazScan (words : List Str) (lastWord : Str) : List Str → Option (Str × Str)
  | [] => none
  | loc :: rest =>
    if (lastWord = loc || strStarts loc lastWord) && words.length > 1 then
      some (splitAtLast words)
    else gazScan words lastWord rest

/-- Go `parser.parsePartyNameLocation`. -/
def parsePartyNameLocation (text0 : Str) : Str × Str :=
  let text := trimSpace text0
  let words := fieldsStr text
  match words with
  | [] => (text, [])
  | _ =>
    let lastWord := toUpperStr ((words.getLast?).getD [])
    if nonLocationWords.contains lastWord then (text, [])
    else
      match gazScan words lastWord locationIndicators with
      | some res => res
      | none =>
        if words.length > 1 && lastWord.length < 15 &&
            lastWord = (words.getLast?).getD [] then
          if allUpperAZ lastWord && lastWord.length > 2 then splitAtLast words
          else (text, [])
        else (text, [])

/-- Go `buildNarration`. -/
def buildNarration (lines : List Str) : Str := joinWith [' '] lines

/-- Go `detectPaymentMode`: fixed priority chain, first match wins. -/
def detectPaymentMode (narration : Str) : Str :=
  if reMatchB rtgsModePattern narration then "RTGS".data
  else if reMatchB neftModePattern narration then "NEFT".data
  else if reMatchB impsModePattern narration then "IMPS".data
  else if reMatchB upiModePattern narration then "UPI".data
  else if reMatchB clgModePattern narration then "CLG".data
  else if reMatchB infModePattern narration then "INF".data
  else if reMatchB chqModePattern narration then "CHEQUE".data
  else if reMatchB posModePattern narration then "POS".data
  else if reMatchB cashModePattern narration then "CASH".data
  else "OTHER".data

/-- The narration-pattern tokens an additional party line must not start with
(`narrationPrefixes` in `isPartyLine`). -/
def narrationStartTokens : List Str :=
  [ "UPI/".data, "NEFT-".data, "RTGS-".data, "IMPS/".data, "MMT/".data,
    "CLG/".data, "INF/".data, "INFT/".data, "CHQ.".data, "CHEQUE".data,
    "BY CASH".data, "FT-MESPOS".data, "BIL/".data]

/-- First-character test of `isPartyLine`: the Go code rejects the line when
`firstChar < 'A' || (firstChar > 'Z' && firstChar < 'a') || firstChar > 'z'`. -/
def alphaFirstChar (w : Str) : Bool :=
  match w with
  | [] => false
  | c :: _ => !(decide (c < 'A') || (decide ('Z' < c) && decide (c < 'a')) || decide ('z' < c))

/-- Go `parser.isPartyLine`. -/
def isPartyLine (line : Str) : Bool :=
  reMatchB amountPattern line &&
  (let upperLine := toUpperStr line
   !(narrationStartTokens.any (fun p => strStarts p upperLine))) &&
  !(reMatchB bankAccountPattern line) &&
  (let remaining := trimSpace (reDeleteAll amountPattern line)
   let words := fieldsStr remaining
   decide (words.length ≥ 2) &&
   alphaFirstChar ((words.head?).getD []))

/-- Go `parser.parseFirstLine`: `m` is the successful `datePattern` find. -/
def parseFirstLine (line : Str) (m : Nat × Nat × Caps) (year : Int) : Transaction :=
  let monthStr := capGet line m.2.2 1
  let dayStr := capGet line m.2.2 2
  let date : GoDate := ⟨year, monthMap monthStr, digitsToNat dayStr⟩
  let remaining0 := reDeleteAll datePattern line
  let amount :=
    match reFind amountPattern remaining0 with
    | some am => parseAmountQ (capGet remaining0 am.2.2 1)
    | none => 0
  let remaining1 :=
    match reFind amountPattern remaining0 with
    | some _ => reDeleteAll amountPattern remaining0
    | none => remaining0
  let nl := parsePartyNameLocation (trimSpace remaining1)
  ⟨date, nl.1, nl.2, amount, [], []⟩

/-- Go `parser.parsePartyLine`: an additional party line, inheriting a date. -/
def parsePartyLine (line : Str) (inheritedDate : GoDate) : Transaction :=
  let amount :=
    match reFind amountPattern line with
    | some am => parseAmountQ (capGet line am.2.2 1)
    | none => 0
  let remaining1 :=
    match reFind amountPattern line with
    | some _ => reDeleteAll amountPattern line
    | none => line
  let nl := parsePartyNameLocation (trimSpace remaining1)
  ⟨inheritedDate, nl.1, nl.2, amount, [], []⟩

/-- Closing a transaction: attach the accumulated narration lines and the
derived payment mode (the flush step of `Parse`). -/
def finishTx (tx : Transaction) (narrationLines : List Str) : Transaction :=
  let narr := buildNarration narrationLines
  { tx with narration := narr, paymentMode := detectPaymentMode narr }

/-- The invoice-reference stripping applied to every line added to the
narration buffer (both the bank-account and the continuation branch do
exactly this). -/
def cleanNarrLine (line : Str) : Str := trimSpace (reDeleteAll invoiceRefPattern line)

/-- Appending a cleaned line to the narration buffer if non-empty. -/
def appendNarr (narrationLines : List Str) (line : Str) : List Str :=
  let c := cleanNarrLine line
  if c.isEmpty then narrationLines else narrationLines ++ [c]

/-- Go's zero `time.Time` (year 1, January 1), the initial `lastDate`. -/
def zeroDate : GoDate := ⟨1, 1, 1⟩

/-- The line-scanning state machine of Go `parser.Parse` (its `for` loop),
with state (current transaction, narration buffer, last seen date,
transactions emitted so far). -/
def parseLoop (year : Int) : List Str → Option Transaction → List Str → GoDate →
    List Transaction → List Transaction
  | [], currentTx, narrationLines, _, acc =>
    match currentTx with
    | some tx => acc ++ [finishTx tx narrationLines]
    | none => acc
  | l :: rest, currentTx, narrationLines, lastDate, acc =>
    let line := trimSpace l
    if shouldSkipLine line then parseLoop year rest currentTx narrationLines lastDate acc
    else
      match reFind datePattern line with
      | some m =>
        let acc' :=
          match currentTx with
          | some tx => acc ++ [finishTx tx narrationLines]
          | none => acc
        let tx := parseFirstLine line m year
        if strContains (toUpperStr tx.partyName) suspenseMarker then
          parseLoop year rest none [] tx.date acc'
        else
          parseLoop year rest (some tx) [] tx.date acc'
      | none =>
        match currentTx with
        | none => parseLoop year rest none narrationLines lastDate acc
        | some tx =>
          if reMatchB bankAccountPattern line then
            parseLoop year rest (some tx) (appendNarr narrationLines line) lastDate acc
          else if isPartyLine line then
            let acc' := acc ++ [finishTx tx narrationLines]
            let tx' := parsePartyLine line lastDate
            if strContains (toUpperStr tx'.partyName) suspenseMarker then
              parseLoop year rest none [] lastDate acc'
            else
              parseLoop year rest (some tx') [] lastDate acc'
          else
            parseLoop year rest (some tx) (appendNarr narrationLines line) lastDate acc

/-- Go `parser.Parse`. -/
def Parse (text : Str) (year : Int) : List Transaction :=
  parseLoop year (splitChar '\n' text) none [] zeroDate []

/-- Go: regexp `\d{2}-\d{2}-(\d{4})` of `ParseWithAutoYear`. -/
def autoYearPattern : RE :=
  .seq [RE.rexact (.cls cDigit) 2, RE.chr '-', RE.rexact (.cls cDigit) 2,
        RE.chr '-', .group 1 (RE.rexact (.cls cDigit) 4)]

/-- Go `parser.ParseWithAutoYear` (`time.Now().Year()` passed explicitly as
`currentYear`): anchors on the year of the *first* `DD-MM-YYYY` occurrence
anywhere in the text. -/
def ParseWithAutoYear (text : Str) (currentYear : Int) : List Transaction :=
  match reFind autoYearPattern text with
  | some m => Parse text (digitsToNat (capGet text m.2.2 1))
  | none => Parse text currentYear

/-! ## Identifier Extractor (`internal/extractor`, current revision) -/

/-- Go `extractor.IdentifierType` (a string type with twelve constants). -/
inductive IdentifierType where
  | upi_vpa | phone | account_number | ifsc | imps_name | bank_name | neft_name
  | cash_bank_code | cash_location | cash_agent_code | from_account | from_name
deriving DecidableEq, Repr

/-- The string value of each `IdentifierType` constant. -/
def IdentifierType.str : IdentifierType → Str
  | .upi_vpa => "upi_vpa".data
  | .phone => "phone".data
  | .account_number => "account_number".data
  | .ifsc => "ifsc".data
  | .imps_name => "imps_name".data
  | .bank_name => "bank_name".data
  | .neft_name => "neft_name".data
  | .cash_bank_code => "cash_bank_code".data
  | .cash_location => "cash_location".data
  | .cash_agent_code => "cash_agent_code".data
  | .from_account => "from_account".data
  | .from_name => "from_name".data

/-- Go `extractor.Identifier`. -/
structure Identifier where
  type : IdentifierType
  value : Str
deriving DecidableEq, Repr

/-- Class `[a-zA-Z0-9._-]`. -/
def cUpiLocal (c : Char) : Bool := cAlnum c || c = '.' || c = '_' || c = '-'

/-- Class `[A-Za-z0-9._@-]`. -/
def cUpiId (c : Char) : Bool := cAlnum c || c = '.' || c = '_' || c = '@' || c = '-'

/-- Class `[^/]`. -/
def cNonSlash (c : Char) : Bool := c ≠ '/'

/-- Class `[^-]`. -/
def cNonHyphen (c : Char) : Bool := c ≠ '-'

/-- Class `[A-Z\s]`. -/
def cUpperWS (c : Char) : Bool := cUpper c || cWS c

/-- Class `[A-Z0-9]`. -/
def cUpperDigit (c : Char) : Bool := cUpper c || cDigit c

/-- Class `[6-9]`. -/
def cSixNine (c : Char) : Bool := decide ('6' ≤ c) && decide (c ≤ '9')

/-- Class `[A-Za-z]` (same as `cAlpha`, named for the Go classes using it). -/
def cAlphaBoth (c : Char) : Bool := cAlpha c

/-- Go: regexp `([a-zA-Z0-9][a-zA-Z0-9._-]{1,255}@[a-zA-Z]{1,64})`. -/
def upiPattern : RE :=
  .group 1 (.seq [.cls cAlnum, RE.rbetween (.cls cUpiLocal) 1 255, RE.chr '@',
                  RE.rbetween (.cls cAlpha) 1 64])

/-- Go: regexp `UPI/\d+/UPI/([A-Za-z0-9._@-]+)/`. -/
def upiNarrationPattern : RE :=
  .seq [RE.lit ("UPI/".data), RE.plus (.cls cDigit), RE.lit ("/UPI/".data),
        .group 1 (RE.plus (.cls cUpiId)), RE.chr '/']

/-- Go: regexp `UPI/[^/]+/([A-Za-z0-9._-]+)/PAYMENT FR/`. -/
def upiNarrationPattern2 : RE :=
  .seq [RE.lit ("UPI/".data), RE.plus (.cls cNonSlash), RE.chr '/',
        .group 1 (RE.plus (.cls cUpiLocal)), RE.chr '/', RE.lit ("PAYMENT FR/".data)]

/-- Go: regexp `UPI/\d+/[^/]+/([A-Za-z0-9._@-]+)/`. -/
def upiNarrationPattern3 : RE :=
  .seq [RE.lit ("UPI/".data), RE.plus (.cls cDigit), RE.chr '/',
        RE.plus (.cls cNonSlash), RE.chr '/', .group 1 (RE.plus (.cls cUpiId)),
        RE.chr '/']

/-- Go: regexp `UPI/[^/]+/([A-Za-z0-9._@-]+)/[^/]+/[^/]+/\d+/`. -/
def upiNarrationPattern4 : RE :=
  .seq [RE.lit ("UPI/".data), RE.plus (.cls cNonSlash), RE.chr '/',
        .group 1 (RE.plus (.cls cUpiId)), RE.chr '/', RE.plus (.cls cNonSlash),
        RE.chr '/', RE.plus (.cls cNonSlash), RE.chr '/', RE.plus (.cls cDigit),
        RE.chr '/']

/-- Go: regexp `UPI/([A-Za-z0-9._@-]+)/[^/]+/[^/]+/\d+/[A-Za-z0-9]+$`. -/
def upiNarrationPattern5 : RE :=
  .seq [RE.lit ("UPI/".data), .group 1 (RE.plus (.cls cUpiId)), RE.chr '/',
        RE.plus (.cls cNonSlash), RE.chr '/', RE.plus (.cls cNonSlash), RE.chr '/',
        RE.plus (.cls cDigit), RE.chr '/', RE.plus (.cls cAlnum), .eol]

/-- Go: regexp `(?:^|[^\d])([6-9]\d{9})(?:[^\d]|$)`. -/
def phonePattern : RE :=
  .seq [.alt .bol (.cls cNonDigit),
        .group 1 (.cat (.cls cSixNine) (RE.rexact (.cls cDigit) 9)),
        .alt (.cls cNonDigit) .eol]

/-- Go: regexp `-(\d{9,18})(?:-|$)`. -/
def accountPattern : RE :=
  .seq [RE.chr '-', .group 1 (RE.rbetween (.cls cDigit) 9 18),
        .alt (RE.chr '-') .eol]

/-- Go: regexp `(?:A/C|ACCT?|Account)\s*(?:No\.?|#)?\s*(\d{9,18})`. -/
def accountPatternAlt : RE :=
  .seq [RE.alts [RE.lit ("A/C".data), .cat (RE.lit ("ACC".data)) (RE.opt (RE.chr 'T')),
                 RE.lit ("Account".data)],
        RE.star (.cls cWS),
        RE.opt (RE.alts [.cat (RE.lit ("No".data)) (RE.opt (RE.chr '.')), RE.chr '#']),
        RE.star (.cls cWS), .group 1 (RE.rbetween (.cls cDigit) 9 18)]

/-- Go: regexp `[A-Z]{4}0[A-Z0-9]{6}`. -/
def ifscPattern : RE :=
  .seq [RE.rexact (.cls cUpper) 4, RE.chr '0', RE.rexact (.cls cUpperDigit) 6]

/-- Go: regexp `MMT/IMPS/\d{12}/OK/([^/]+)/(.+)`. -/
def impsOKPattern : RE :=
  .seq [RE.lit ("MMT/IMPS/".data), RE.rexact (.cls cDigit) 12, RE.lit ("/OK/".data),
        .group 1 (RE.plus (.cls cNonSlash)), RE.chr '/', .group 2 (RE.plus (.cls cDot))]

/-- Go: regexp `MMT/IMPS/\d{12}/([A-Z][A-Z\s]*)/([A-Z][A-Z\s]*)/(.+)`. -/
def impsTwoNamesPattern : RE :=
  .seq [RE.lit ("MMT/IMPS/".data), RE.rexact (.cls cDigit) 12, RE.chr '/',
        .group 1 (.cat (.cls cUpper) (RE.star (.cls cUpperWS))), RE.chr '/',
        .group 2 (.cat (.cls cUpper) (RE.star (.cls cUpperWS))), RE.chr '/',
        .group 3 (RE.plus (.cls cDot))]

/-- Go: regexp `MMT/IMPS/\d{12}/\d+\s*/([^/]+)/(.+)`. -/
def impsSecondaryRefPattern : RE :=
  .seq [RE.lit ("MMT/IMPS/".data), RE.rexact (.cls cDigit) 12, RE.chr '/',
        RE.plus (.cls cDigit), RE.star (.cls cWS), RE.chr '/',
        .group 1 (RE.plus (.cls cNonSlash)), RE.chr '/', .group 2 (RE.plus (.cls cDot))]

/-- Go: regexp `MMT/IMPS/\d{12}/IMPS P2A\s+([^/]+?)\s*/([^/]+)/(.+)`. -/
def impsP2APattern : RE :=
  .seq [RE.lit ("MMT/IMPS/".data), RE.rexact (.cls cDigit) 12, RE.chr '/',
        RE.lit ("IMPS P2A".data), RE.plus (.cls cWS),
        .group 1 (RE.plusLazy (.cls cNonSlash)), RE.star (.cls cWS), RE.chr '/',
        .group 2 (RE.plus (.cls cNonSlash)), RE.chr '/', .group 3 (RE.plus (.cls cDot))]

/-- Go: regexp `MMT/IMPS/\d{12}/REQPAY/([^/]+?)\s*/(.+)`. -/
def impsREQPAYPattern : RE :=
  .seq [RE.lit ("MMT/IMPS/".data), RE.rexact (.cls cDigit) 12, RE.lit ("/REQPAY/".data),
        .group 1 (RE.plusLazy (.cls cNonSlash)), RE.star (.cls cWS), RE.chr '/',
        .group 2 (RE.plus (.cls cDot))]

/-- Go: regexp `MMT/IMPS/\d{12}/([A-Z][A-Z\s]*)/([A-Z][A-Z\s]+)$`. -/
def impsSimplePattern : RE :=
  .seq [RE.lit ("MMT/IMPS/".data), RE.rexact (.cls cDigit) 12, RE.chr '/',
        .group 1 (.cat (.cls cUpper) (RE.star (.cls cUpperWS))), RE.chr '/',
        .group 2 (.cat (.cls cUpper) (RE.plus (.cls cUpperWS))), .eol]

/-- Go: regexp `NEFT-[A-Z]{4,5}[A-Z0-9]*\d+-([^-]+)-`. -/
def neftNamePattern : RE :=
  .seq [RE.lit ("NEFT-".data), RE.rbetween (.cls cUpper) 4 5,
        RE.star (.cls cUpperDigit), RE.plus (.cls cDigit), RE.chr '-',
        .group 1 (RE.plus (.cls cNonHyphen)), RE.chr '-']

/-- Go: regexp `INF/INFT/\d+/[^/]+\s*/([^/]+)`. -/
def inftNamePattern : RE :=
  .seq [RE.lit ("INF/INFT/".data), RE.plus (.cls cDigit), RE.chr '/',
        RE.plus (.cls cNonSlash), RE.star (.cls cWS), RE.chr '/',
        .group 1 (RE.plus (.cls cNonSlash))]

/-- Go: regexp `INF/INFT/\d+/([A-Z][A-Z\s]+)$`. -/
def inftSingleNamePattern : RE :=
  .seq [RE.lit ("INF/INFT/".data), RE.plus (.cls cDigit), RE.chr '/',
        .group 1 (.cat (.cls cUpper) (RE.plus (.cls cUpperWS))), .eol]

/-- Go: regexp `BIL/INFT/[A-Z0-9]+/\s*([A-Z][A-Z\s]+)`. -/
def bilInftNamePattern : RE :=
  .seq [RE.lit ("BIL/INFT/".data), RE.plus (.cls cUpperDigit), RE.chr '/',
        RE.star (.cls cWS), .group 1 (.cat (.cls cUpper) (RE.plus (.cls cUpperWS)))]

/-- Go: regexp `NEFT_IN:[^/]*//[A-Z0-9]+/([A-Z][A-Z\s]+?)(?:\s+AG\.|\s*$)`. -/
def neftInNamePattern : RE :=
  .seq [RE.lit ("NEFT_IN:".data), RE.star (.cls cNonSlash), RE.lit ("//".data),
        RE.plus (.cls cUpperDigit), RE.chr '/',
        .group 1 (.cat (.cls cUpper) (RE.plusLazy (.cls cUpperWS))),
        .alt (.seq [RE.plus (.cls cWS), RE.lit ("AG.".data)])
             (.cat (RE.star (.cls cWS)) .eol)]

/-- Go: regexp `BY\s+CASH\s+-(\d{5,8})`. -/
def cashBankCodePattern : RE :=
  .seq [RE.lit ("BY".data), RE.plus (.cls cWS), RE.lit ("CASH".data),
        RE.plus (.cls cWS), RE.chr '-', .group 1 (RE.rbetween (.cls cDigit) 5 8)]

/-- Go: regexp `BY\s+CASH\s+-\d{5,8}\s+([A-Z][A-Za-z]*(?:\s+\([A-Z]{2}\))?)`. -/
def cashLocationPattern : RE :=
  .seq [RE.lit ("BY".data), RE.plus (.cls cWS), RE.lit ("CASH".data),
        RE.plus (.cls cWS), RE.chr '-', RE.rbetween (.cls cDigit) 5 8,
        RE.plus (.cls cWS),
        .group 1 (.seq [.cls cUpper, RE.star (.cls cAlphaBoth),
          RE.opt (.seq [RE.plus (.cls cWS), RE.chr '(',
                        RE.rexact (.cls cUpper) 2, RE.chr ')'])])]

/-- Go: regexp `(?:AG\.?|AGT\.?|AGENCY)\s*\*?([A-Z]{2,4}\d{6,10})`. -/
def cashAgentCodePattern : RE :=
  .seq [RE.alts [.cat (RE.lit ("AG".data)) (RE.opt (RE.chr '.')),
                 .cat (RE.lit ("AGT".data)) (RE.opt (RE.chr '.')),
                 RE.lit ("AGENCY".data)],
        RE.star (.cls cWS), RE.opt (RE.chr '*'),
        .group 1 (.cat (RE.rbetween (.cls cUpper) 2 4)
                       (RE.rbetween (.cls cDigit) 6 10))]

/-- Go: regexp `FROM:([X]{4}\d{4}):([A-Z][A-Z\s]+)`. -/
def fromPattern : RE :=
  .seq [RE.lit ("FROM:".data),
        .group 1 (.cat (RE.rexact (RE.chr 'X') 4) (RE.rexact (.cls cDigit) 4)),
        RE.chr ':', .group 2 (.cat (.cls cUpper) (RE.plus (.cls cUpperWS)))]

/-- Go `bankNormalization`, a `map[string]string`.  Keys are unique, so exact
lookup is order-independent, but the *prefix-fallback* loop of `normalizeBank`
ranges over the map, whose iteration order Go leaves unspecified and
randomizes; the table is therefore passed as an explicit entry list, with
`bankNormalization` giving the entries in source order. -/
def bankNormalization : List (Str × Str) :=
  [ ("UNION BANKOF I".data, "UNION BANK OF INDIA".data),
    ("STATE BANK O".data, "STATE BANK OF INDIA".data),
    ("STATE BANK OF I".data, "STATE BANK OF INDIA".data),
    ("BANK OF BARO".data, "BANK OF BARODA".data),
    ("PUNJAB NATIO".data, "PUNJAB NATIONAL BANK".data),
    ("CANARA BANK".data, "CANARA BANK".data),
    ("HDFC BANK".data, "HDFC BANK".data),
    ("ICICI BANK".data, "ICICI BANK".data),
    ("AXIS BANK".data, "AXIS BANK".data),
    ("KOTAK MAHIND".data, "KOTAK MAHINDRA BANK".data),
    ("INDUSIND BAN".data, "INDUSIND BANK".data),
    ("YES BANK".data, "YES BANK".data),
    ("IDBI BANK".data, "IDBI BANK".data),
    ("CENTRAL BANK".data, "CENTRAL BANK OF INDIA".data),
    ("INDIAN BANK".data, "INDIAN BANK".data),
    ("INDIAN OVERS".data, "INDIAN OVERSEAS BANK".data),
    ("UCO BANK".data, "UCO BANK".data),
    ("BANK OF INDI".data, "BANK OF INDIA".data),
    ("SYNDICATE BA".data, "SYNDICATE BANK".data),
    ("ALLAHABAD BA".data, "ALLAHABAD BANK".data),
    ("CORPORATION".data, "CORPORATION BANK".data),
    ("ORIENTAL BAN".data, "ORIENTAL BANK OF COMMERCE".data),
    ("UNITED BANK".data, "UNITED BANK OF INDIA".data),
    ("DENA BANK".data, "DENA BANK".data),
    ("VIJAYA BANK".data, "VIJAYA BANK".data),
    ("FEDERAL BANK".data, "FEDERAL BANK".data),
    ("SOUTH INDIAN".data, "SOUTH INDIAN BANK".data),
    ("KARNATAKA BA".data, "KARNATAKA BANK".data),
    ("BANDHAN BANK".data, "BANDHAN BANK".data),
    ("RBL BANK".data, "RBL BANK".data),
    ("IDFC FIRST B".data, "IDFC FIRST BANK".data),
    ("AU SMALL FIN".data, "AU SMALL FINANCE BANK".data),
    ("EQUITAS SMAL".data, "EQUITAS SMALL FINANCE BANK".data),
    ("UJJIVAN SMAL".data, "UJJIVAN SMALL FINANCE BANK".data),
    ("PAYTM PAYMEN".data, "PAYTM PAYMENTS BANK".data),
    ("AIRTEL PAYME".data, "AIRTEL PAYMENTS BANK".data),
    ("FINO PAYMENT".data, "FINO PAYMENTS BANK".data),
    ("JIOPAYMENTSB".data, "JIO PAYMENTS BANK".data),
    ("PUNJAB AND SIND".data, "PUNJAB AND SIND BANK".data),
    ("PUNJAB AND S".data, "PUNJAB AND SIND BANK".data)]

/-- Go `extractor.normalizeBank`, with the map enumeration order made
explicit: exact lookup first, then the first entry (in `table` order) where
either string is a prefix of the other. -/
def normalizeBankWith (table : List (Str × Str)) (raw0 : Str) : Str :=
  let raw := trimSpace raw0
  match table.find? (fun e => e.1 = raw) with
  | some e => e.2
  | none =>
    match table.find? (fun e => strStarts raw e.1 || strStarts e.1 raw) with
    | some e => e.2
    | none => raw

/-- Go `extractor.isValidExtractedName`. -/
def isValidExtractedName (name0 : Str) : Bool :=
  let name := trimSpace name0
  decide (name.length ≥ 2) &&
  !([ "OK".data, "NA".data, "NULL".data, "FAIL".data, "ERROR".data,
      "PENDING".data, "SUCCESS".data].contains name) &&
  !(strEnds ("PAYMENT".data) (toUpperStr name)) &&
  name.any cAlpha

/-- Go `extractor.extractIMPSData`: the six IMPS layouts in priority order,
first matching layout wins; returns the validated names and the normalized
bank (with the normalization-table order explicit). -/
def extractIMPSData (table : List (Str × Str)) (narration : Str) :
    List Str × Str :=
  let up := toUpperStr narration
  match reFind impsOKPattern up with
  | some m =>
    let name := trimSpace (capGet up m.2.2 1)
    ((if isValidExtractedName name then [name] else []),
     normalizeBankWith table (capGet up m.2.2 2))
  | none =>
  match reFind impsTwoNamesPattern up with
  | some m =>
    let name1 := trimSpace (capGet up m.2.2 1)
    let name2 := trimSpace (capGet up m.2.2 2)
    ((if isValidExtractedName name1 && name1 ≠ "OK".data then [name1] else []) ++
     (if isValidExtractedName name2 && name2 ≠ "OK".data then [name2] else []),
     normalizeBankWith table (capGet up m.2.2 3))
  | none =>
  match reFind impsSecondaryRefPattern up with
  | some m =>
    let name := trimSpace (capGet up m.2.2 1)
    ((if isValidExtractedName name then [name] else []),
     normalizeBankWith table (capGet up m.2.2 2))
  | none =>
  match reFind impsP2APattern up with
  | some m =>
    let sender := trimSpace (capGet up m.2.2 1)
    let receiver := trimSpace (capGet up m.2.2 2)
    ((if isValidExtractedName sender then [sender] else []) ++
     (if isValidExtractedName receiver then [receiver] else []),
     normalizeBankWith table (capGet up m.2.2 3))
  | none =>
  match reFind impsREQPAYPattern up with
  | some m =>
    let name := trimSpace (capGet up m.2.2 1)
    ((if isValidExtractedName name then [name] else []),
     normalizeBankWith table (capGet up m.2.2 2))
  | none =>
  match reFind impsSimplePattern up with
  | some m =>
    let name := trimSpace (capGet up m.2.2 1)
    ((if isValidExtractedName name then [name] else []),
     normalizeBankWith table (capGet up m.2.2 2))
  | none => ([], [])

/-- Go `extractor.extractNEFTName`: five layouts in priority order, first
valid name wins. -/
def extractNEFTName (narration : Str) : Str :=
  let up := toUpperStr narration
  let tryPat := fun (p : RE) =>
    match reFind p up with
    | some m =>
      let name := trimSpace (capGet up m.2.2 1)
      if isValidExtractedName name then some name else none
    | none => none
  match tryPat neftNamePattern with
  | some n => n
  | none =>
  match tryPat inftNamePattern with
  | some n => n
  | none =>
  match tryPat inftSingleNamePattern with
  | some n => n
  | none =>
  match tryPat bilInftNamePattern with
  | some n => n
  | none =>
  match tryPat neftInNamePattern with
  | some n => n
  | none => []

/-- The deduplication key used by `Extract`'s `seen` map:
`string(idType) + ":" + value`. -/
def idKey (t : IdentifierType) (v : Str) : Str := t.str ++ ':' :: v

/-- The state threaded through `Extract`: identifiers collected so far and
the keys already seen. -/
abbrev ExState := List Identifier × List Str

/-- Boolean membership in a list of strings (the `seen` map lookup). -/
def memStr (l : List Str) (k : Str) : Bool := l.any (fun x => x = k)

/-- The repeated `if !seen[key] { seen[key] = true; identifiers = append(...) }`
block of `Extract`. -/
def addIfNew (st : ExState) (t : IdentifierType) (v : Str) : ExState :=
  let key := idKey t v
  if memStr st.2 key then st else (st.1 ++ [⟨t, v⟩], key :: st.2)

/-- All candidate `(type, value)` pairs produced by `Extract`'s pattern
blocks for a narration, in the exact source order of the blocks.  `Extract`
itself is the `addIfNew` fold over this stream, which is precisely the Go
code's interleaving of candidate production with the `seen`-map filter. -/
def extractCandidates (table : List (Str × Str)) (narration : Str) :
    List (IdentifierType × Str) :=
  let up := toUpperStr narration
  ((reFindAll upiPattern narration).map
    (fun m => (IdentifierType.upi_vpa, toUpperStr (capGet narration m.2.2 1)))) ++
  ((reFindAll upiNarrationPattern up).map
    (fun m => (IdentifierType.upi_vpa, capGet up m.2.2 1))) ++
  ((reFindAll upiNarrationPattern2 up).map
    (fun m => (IdentifierType.upi_vpa, capGet up m.2.2 1))) ++
  ((reFindAll upiNarrationPattern3 up).map
    (fun m => (IdentifierType.upi_vpa, capGet up m.2.2 1))) ++
  ((reFindAll upiNarrationPattern4 up).map
    (fun m => (IdentifierType.upi_vpa, capGet up m.2.2 1))) ++
  ((reFindAll upiNarrationPattern5 up).map
    (fun m => (IdentifierType.upi_vpa, capGet up m.2.2 1))) ++
  ((reFindAll phonePattern up).map
    (fun m => (IdentifierType.phone, capGet up m.2.2 1))) ++
  ((reFindAll accountPattern up).map
    (fun m => (IdentifierType.account_number, capGet up m.2.2 1))) ++
  ((reFindAll accountPatternAlt up).map
    (fun m => (IdentifierType.account_number, capGet up m.2.2 1))) ++
  ((reFindAll ifscPattern up).map
    (fun m => (IdentifierType.ifsc, sliceStr up m.1 m.2.1))) ++
  (let nb := extractIMPSData table narration
   (nb.1.map (fun name => (IdentifierType.imps_name, name))) ++
   (if nb.2.isEmpty then [] else [(IdentifierType.bank_name, nb.2)])) ++
  (let neftName := extractNEFTName narration
   if neftName.isEmpty then [] else [(IdentifierType.neft_name, neftName)]) ++
  (match reFind cashBankCodePattern up with
   | some m => [(IdentifierType.cash_bank_code, capGet up m.2.2 1)]
   | none => []) ++
  (match reFind cashLocationPattern up with
   | some m =>
     let v := trimSpace (capGet up m.2.2 1)
     if v.isEmpty then [] else [(IdentifierType.cash_location, v)]
   | none => []) ++
  (match reFind cashAgentCodePattern up with
   | some m => [(IdentifierType.cash_agent_code, capGet up m.2.2 1)]
   | none => []) ++
  (match reFind fromPattern up with
   | some m =>
     (IdentifierType.from_account, capGet up m.2.2 1) ::
     (let sender := trimSpace (trimTrailing (" AG".data) (trimSpace (capGet up m.2.2 2)))
      if isValidExtractedName sender then [(IdentifierType.from_name, sender)] else [])
   | none => [])

/-- Go `extractor.Extract`, with the bank-normalization enumeration order as
an explicit parameter. -/
def ExtractWith (table : List (Str × Str)) (narration : Str) : List Identifier :=
  ((extractCandidates table narration).foldl
    (fun st tv => addIfNew st tv.1 tv.2) ([], [])).1

/-- Go `extractor.Extract` with the normalization table enumerated in source
order. -/
def Extract (narration : Str) : List Identifier :=
  ExtractWith bankNormalization narration

/-! ## Party Matcher (`internal/matcher`, current revision)

Database rows and collaborator calls are passed explicitly (a `Queries`
record of functions returning `Except Unit _`, mirroring Go's
`(value, error)` pairs).  `math.Log10` is passed as the parameter `L`.
Go iterates its `partyMatches` map in unspecified order before sorting; the
embedding keeps first-insertion order — every verified property is
insensitive to that order.  `sort.Slice` is modelled by an insertion sort
with the same comparator; `sort.Slice` is not stable, so only the relative
order of *strictly* compared elements is meaningful, and the verified
properties only rely on that. -/

/-- Go `sqlc.Party`. -/
structure GoParty where
  id : Int
  name : Str
  location : Str
  createdAt : Int
deriving DecidableEq, Repr

/-- Go `sqlc.FindPartiesByIdentifierValuesRow`. -/
structure FindRow where
  id : Int
  name : Str
  location : Str
  createdAt : Int
  matchType : Str
  matchValue : Str
deriving DecidableEq, Repr

/-- Go `sqlc.FindPartiesByNarrationPatternRow` (party columns plus the
matched narration). -/
structure NarrRow where
  id : Int
  name : Str
  location : Str
  createdAt : Int
  matchNarration : Str
deriving DecidableEq, Repr

/-- Go `sqlc.Transaction`. -/
structure GoTxn where
  id : Int
  partyID : Int
  amount : ℚ
  transactionDate : Int
  paymentMode : Str
  narration : Str
  bank : Str
  createdAt : Int
deriving DecidableEq, Repr

/-- Go `sqlc.GetPartyWithTransactionCountRow` (party columns, count, and a
nullable total, `sql.NullFloat64` as `Option ℚ`). -/
structure StatsRow where
  id : Int
  name : Str
  location : Str
  createdAt : Int
  transactionCount : Int
  totalAmount : Option ℚ
deriving DecidableEq, Repr

/-- Go `matcher.MatchedIdentifier`. -/
structure MatchedIdentifier where
  type : Str
  value : Str
deriving DecidableEq, Repr

/-- Go `matcher.MatchResult`. -/
structure MatchResult where
  party : GoParty
  partyIDs : List Int
  confidence : ℚ
  matchedOn : List MatchedIdentifier
  transactionCount : Int
  totalAmount : ℚ
  recentTxns : List GoTxn
deriving DecidableEq, Repr

/-- The database collaborator consumed by `matcher.Matcher` (`sqlc.Queries`),
restricted to the four read calls `Match` makes. -/
structure Queries where
  findPartiesByIdentifierValues : List Str → Except Unit (List FindRow)
  getPartyWithTransactionCount : Int → Except Unit StatsRow
  getRecentTransactionsByPartyID : Int → Int → Except Unit (List GoTxn)
  findPartiesByNarrationPattern : Str → Except Unit (List NarrRow)

/-- Go constant `UPIVPAWeight = 0.95`. -/
def UPIVPAWeight : ℚ := 95 / 100

/-- Go constant `PhoneWeight = 0.85`. -/
def PhoneWeight : ℚ := 85 / 100

/-- Go constant `AccountNumberWeight = 0.80`. -/
def AccountNumberWeight : ℚ := 80 / 100

/-- Go constant `IMPSNameWeight = 0.50`. -/
def IMPSNameWeight : ℚ := 50 / 100

/-- Go constant `NEFTNameWeight = 0.50`. -/
def NEFTNameWeight : ℚ := 50 / 100

/-- Go constant `BankNameWeight = 0.20`. -/
def BankNameWeight : ℚ := 20 / 100

/-- The `switch match.Type` of `calculateConfidence`: each branch is the
corresponding weight constant times 100; unknown types get 50. -/
def identifierWeight (t : Str) : ℚ :=
  if t = IdentifierType.upi_vpa.str then UPIVPAWeight * 100
  else if t = IdentifierType.phone.str then PhoneWeight * 100
  else if t = IdentifierType.account_number.str then AccountNumberWeight * 100
  else if t = IdentifierType.imps_name.str then IMPSNameWeight * 100
  else if t = IdentifierType.neft_name.str then NEFTNameWeight * 100
  else if t = IdentifierType.bank_name.str then BankNameWeight * 100
  else 50

/-- The accumulation loop of `calculateConfidence`: each *distinct* type
(tracked in `seenTypes`, the Go `matchTypes` map) contributes once; the first
contributing type sets the confidence to its weight, each further one adds
`(100 - confidence) * (weight/100) * 0.5`. -/
def calcConfLoop : List MatchedIdentifier → List Str → ℚ → ℚ
  | [], _, conf => conf
  | m :: ms, seenTypes, conf =>
    if memStr seenTypes m.type then calcConfLoop ms seenTypes conf
    else
      let w := identifierWeight m.type
      let conf' := if conf = 0 then w else conf + (100 - conf) * (w / 100) * (1 / 2)
      calcConfLoop ms (m.type :: seenTypes) conf'

/-- Go `matcher.calculateConfidence`. -/
def calculateConfidence (ms : List MatchedIdentifier) : ℚ :=
  if ms = [] then 0 else min (calcConfLoop ms [] 0) 100

/-- Go `matcher.containsInt64`. -/
def containsInt64 (l : List Int) (v : Int) : Bool := l.any (fun x => x = v)

/-- Go `matcher.containsIdentifier`. -/
def containsIdentifier (l : List MatchedIdentifier) (idf : MatchedIdentifier) : Bool :=
  l.any (fun v => v.type = idf.type && v.value = idf.value)

/-- One step of the grouping loop of `Match` (lines grouping
`FindPartiesByIdentifierValues` rows by party *name*): create the entry on
first sight, then merge the row's id (if new) and its matched identifier
(deduplicated by type+value). -/
def groupStep (acc : List MatchResult) (row : FindRow) : List MatchResult :=
  let idf : MatchedIdentifier := ⟨row.matchType, row.matchValue⟩
  if acc.any (fun r => r.party.name = row.name) then
    acc.map (fun r =>
      if r.party.name = row.name then
        let r1 := if containsInt64 r.partyIDs row.id then r
                  else { r with partyIDs := r.partyIDs ++ [row.id] }
        if containsIdentifier r1.matchedOn idf then r1
        else { r1 with matchedOn := r1.matchedOn ++ [idf] }
      else r)
  else
    acc ++ [{ party := ⟨row.id, row.name, row.location, row.createdAt⟩,
              partyIDs := [row.id], confidence := 0, matchedOn := [idf],
              transactionCount := 0, totalAmount := 0, recentTxns := [] }]

/-- The grouping loop of `Match` over all rows. -/
def groupMatches (rows : List FindRow) : List MatchResult :=
  rows.foldl groupStep []

/-- Insertion into a list sorted descending by transaction date (Go sorts
recent transactions with `After`). -/
def insertTxnDesc (t : GoTxn) : List GoTxn → List GoTxn
  | [] => [t]
  | u :: us =>
    if t.transactionDate > u.transactionDate then t :: u :: us
    else u :: insertTxnDesc t us

/-- The `sort.Slice(allRecentTxns, …)` of the enrichment loop. -/
def sortTxnsByDateDesc (ts : List GoTxn) : List GoTxn :=
  ts.foldr insertTxnDesc []

/-- One step of the per-candidate stats aggregation of `Match` (and of
`matchByNarration`): a failing stats lookup contributes nothing, a failing
recent-transactions lookup contributes no transactions; nothing aborts. -/
def aggStep (q : Queries) (acc : Int × ℚ × List GoTxn) (pid : Int) :
    Int × ℚ × List GoTxn :=
  let acc1 :=
    match q.getPartyWithTransactionCount pid with
    | .ok s =>
      (acc.1 + s.transactionCount,
       (match s.totalAmount with
        | some a => acc.2.1 + a
        | none => acc.2.1), acc.2.2)
    | .error _ => acc
  match q.getRecentTransactionsByPartyID pid 5 with
  | .ok ts => (acc1.1, acc1.2.1, acc1.2.2 ++ ts)
  | .error _ => acc1

/-- The stats-aggregation loop over all merged internal party ids. -/
def aggStats (q : Queries) (ids : List Int) : Int × ℚ × List GoTxn :=
  ids.foldl (aggStep q) (0, 0, [])

/-- The history boost `confidence := min(confidence * (1 + log10(count)*0.1), 100)`
applied when the aggregated count is positive; `L` models `math.Log10` on
`float64(count)`. -/
def historyBoost (L : Int → ℚ) (conf : ℚ) (cnt : Int) : ℚ :=
  if cnt > 0 then min (conf * (1 + L cnt * (1 / 10))) 100 else conf

/-- The enrichment applied to each grouped candidate on the identifier path
of `Match`: recompute the confidence from the matched identifiers, aggregate
stats over all merged ids, keep the five most recent transactions, boost. -/
def enrichIdent (q : Queries) (L : Int → ℚ) (r : MatchResult) : MatchResult :=
  let conf := calculateConfidence r.matchedOn
  let s := aggStats q r.partyIDs
  { r with
    confidence := historyBoost L conf s.1,
    transactionCount := s.1,
    totalAmount := s.2.1,
    recentTxns := (sortTxnsByDateDesc s.2.2).take 5 }

/-- The enrichment of `matchByNarration` candidates: identical, except the
pre-boost confidence is the one already stored (the fixed 40). -/
def enrichNarr (q : Queries) (L : Int → ℚ) (r : MatchResult) : MatchResult :=
  let s := aggStats q r.partyIDs
  { r with
    confidence := historyBoost L r.confidence s.1,
    transactionCount := s.1,
    totalAmount := s.2.1,
    recentTxns := (sortTxnsByDateDesc s.2.2).take 5 }

/-- Insertion into a list sorted descending by confidence (the final
`sort.Slice(results, …Confidence > …Confidence)`). -/
def insertResDesc (r : MatchResult) : List MatchResult → List MatchResult
  | [] => [r]
  | u :: us =>
    if r.confidence > u.confidence then r :: u :: us
    else u :: insertResDesc r us

/-- Sorting the results descending by confidence. -/
def sortResultsByConfDesc (rs : List MatchResult) : List MatchResult :=
  rs.foldr insertResDesc []

/-- The `%`-wrapped search patterns `matchByNarration` builds: the IMPS/NEFT
names among the extracted identifiers, or — when there are none — every
trimmed 12-digit slash-field of a narration containing `MMT/IMPS/`. -/
def narrSearchPatterns (narration : Str) (identifiers : List Identifier) : List Str :=
  let ps := identifiers.filterMap (fun idf =>
    if idf.type = IdentifierType.imps_name || idf.type = IdentifierType.neft_name then
      some ('%' :: idf.value ++ ['%'])
    else none)
  if !ps.isEmpty then ps
  else if strContains (toUpperStr narration) ("MMT/IMPS/".data) then
    (splitChar '/' narration).filterMap (fun part0 =>
      let part := trimSpace part0
      if part.length = 12 && part.all cDigit then some ('%' :: part ++ ['%'])
      else none)
  else []

/-- The grouping loop of `matchByNarration`: one query per pattern, errors
skipped (`continue`), rows grouped by name at fixed confidence 40 with a
single pseudo-identifier of type `narration`. -/
def narrGroup (q : Queries) (patterns : List Str) : List MatchResult :=
  patterns.foldl
    (fun acc pattern =>
      match q.findPartiesByNarrationPattern pattern with
      | .error _ => acc
      | .ok rows =>
        rows.foldl
          (fun acc row =>
            if acc.any (fun r => r.party.name = row.name) then
              acc.map (fun r =>
                if r.party.name = row.name then
                  if containsInt64 r.partyIDs row.id then r
                  else { r with partyIDs := r.partyIDs ++ [row.id] }
                else r)
            else
              acc ++ [{ party := ⟨row.id, row.name, row.location, row.createdAt⟩,
                        partyIDs := [row.id], confidence := 40,
                        matchedOn := [⟨"narration".data,
                          trimLeading ['%'] (trimTrailing ['%'] pattern)⟩],
                        transactionCount := 0, totalAmount := 0, recentTxns := [] }])
          acc)
    []

/-- Go `matcher.matchByNarration` (the fallback when no identifier row was
found).  It never returns an error. -/
def matchByNarration (q : Queries) (L : Int → ℚ) (narration : Str)
    (identifiers : List Identifier) : Except Unit (List MatchResult) :=
  let patterns := narrSearchPatterns narration identifiers
  if patterns.isEmpty then .ok []
  else .ok (sortResultsByConfDesc ((narrGroup q patterns).map (enrichNarr q L)))

/-- Go `matcher.Matcher.Match`. -/
def Match (q : Queries) (L : Int → ℚ) (narration : Str) :
    Except Unit (List MatchResult) :=
  let identifiers := Extract narration
  match (if identifiers.isEmpty then .ok []
         else q.findPartiesByIdentifierValues (identifiers.map (·.value))) with
  | .error e => .error e
  | .ok found =>
    if found.isEmpty then matchByNarration q L narration identifiers
    else .ok (sortResultsByConfDesc ((groupMatches found).map (enrichIdent q L)))

/-! ## Year derivation from the ledger header (import handler path)

The import handler (`internal/handler/handler.go`, `ImportPreview`) derives
the reference year by calling `parser.ExtractYearFromHeader(data)`; that
function's implementation is not present under `src/` — only its tests
(`TestExtractYearFromHeader`) and this caller are.  It is therefore modelled
from the specification below.  The model agrees with every case of the
in-repository test `TestExtractYearFromHeader`, including the year-spanning
range `15-12-2023 - 15-01-2024` expected to give 2024 ("Uses TO year"). -/

/-- Modelled from the spec: the `DD-MM-YYYY - DD-MM-YYYY` date-range header
pattern of `ExtractYearFromHeader`, searched anywhere in the text (the
in-repo tests find it inside longer header blocks and after prefixes).
Written as the regexp `(\d{2})-(\d{2})-(\d{4})\s+-\s+(\d{2})-(\d{2})-(\d{4})`,
the separator shape also used by the parser's own date-range skip pattern. -/
def headerRangePattern : RE :=
  .seq [.group 1 (RE.rexact (.cls cDigit) 2), RE.chr '-',
        .group 2 (RE.rexact (.cls cDigit) 2), RE.chr '-',
        .group 3 (RE.rexact (.cls cDigit) 4), RE.plus (.cls cWS), RE.chr '-',
        RE.plus (.cls cWS),
        .group 4 (RE.rexact (.cls cDigit) 2), RE.chr '-',
        .group 5 (RE.rexact (.cls cDigit) 2), RE.chr '-',
        .group 6 (RE.rexact (.cls cDigit) 4)]

/-- Modelled from the spec: the two dates of the first date-range header
occurring in the text, if any. -/
def headerDates (text : Str) : Option (GoDate × GoDate) :=
  match reFind headerRangePattern text with
  | none => none
  | some m =>
    some (⟨(digitsToNat (capGet text m.2.2 3) : Int),
           digitsToNat (capGet text m.2.2 2), digitsToNat (capGet text m.2.2 1)⟩,
          ⟨(digitsToNat (capGet text m.2.2 6) : Int),
           digitsToNat (capGet text m.2.2 5), digitsToNat (capGet text m.2.2 4)⟩)

/-- Calendar order on `GoDate` (year, then month, then day). -/
def dateLeB (d1 d2 : GoDate) : Bool :=
  decide (d1.year < d2.year) ||
  (decide (d1.year = d2.year) &&
   (decide (d1.month < d2.month) ||
    (decide (d1.month = d2.month) && decide (d1.day ≤ d2.day))))

/-- Modelled from the spec: `parser.ExtractYearFromHeader`, whose
implementation is missing from `src/` (only its tests and its caller in
the import handler exist).  Per spec §6 the core derives the year from a
`DD-MM-YYYY - DD-MM-YYYY` header "using the later of the two dates"; returns
0 when no header is found (as the in-repo tests require). -/
def ExtractYearFromHeader (text : Str) : Int :=
  match headerDates text with
  | none => 0
  | some (d1, d2) => if dateLeB d1 d2 then d2.year else d1.year

/-- The year-determination logic of `handler.ImportPreview`
(`src/internal/handler/handler.go` lines 93–107): current year by default,
a positive header-extracted year overrides it, an explicit user-supplied
year different from the current year overrides both.  `yearField = none`
models an absent or unparsable form value. -/
def previewYear (data : Str) (yearField : Option Int) (currentYear : Int) : Int :=
  let extractedYear := ExtractYearFromHeader data
  let year := if extractedYear > 0 then extractedYear else currentYear
  match yearField with
  | some y => if y ≠ currentYear then y else year
  | none => year

/-- `handler.ImportPreview`'s parse call: `parser.Parse(data, year)` with the
year determined above. -/
def importPreviewTransactions (data : Str) (yearField : Option Int)
    (currentYear : Int) : List Transaction :=
  Parse data (previewYear data yearField currentYear)

/-! ## Statement-level helpers for the verified claims -/

/-- A transaction whose party name does not contain the suspense marker. -/
def noSuspense (tx : Transaction) : Bool :=
  !(strContains (toUpperStr tx.partyName) suspenseMarker)

/-- The narration buffer `Parse` accumulates over lines that neither start a
transaction nor are party lines: skipped lines contribute nothing, every
other line is invoice-stripped, trimmed and appended when non-empty (the
bank-account branch and the continuation branch of the loop do the same
thing to the buffer). -/
def sharedNarrOf (shared : List Str) : List Str :=
  shared.foldl
    (fun acc l =>
      let t := trimSpace l
      if shouldSkipLine t then acc else appendNarr acc t) []

/-- The transactions a single multi-party ledger entry flushes, described
recursively: each additional party line closes the previous transaction with
an empty narration buffer and opens a new one inheriting the date `d`; the
last transaction of the entry receives the narration accumulated from the
shared trailing lines. -/
def flushedEntry (tx : Transaction) (pls : List Str) (d : GoDate)
    (shared : List Str) : List Transaction :=
  match pls with
  | [] => [finishTx tx (sharedNarrOf shared)]
  | l :: rest => finishTx tx [] :: flushedEntry (parsePartyLine (trimSpace l) d) rest d shared

/-- The split criterion of the amended claim C7, stated from the amended
spec wording: a multi-word input splits off its last token as the location
exactly when the upper-cased token is not in the "not a location" set and
either extends some gazetteer entry (has it as a prefix, equality included)
or is, as written, an all-uppercase alphabetic token of length 3 to 14. -/
def specSplitCond (words : List Str) : Bool :=
  match words.getLast? with
  | none => false
  | some lastRaw =>
    let up := toUpperStr lastRaw
    decide (words.length > 1) && !(nonLocationWords.contains up) &&
    (locationIndicators.any (fun loc => strStarts loc up) ||
     (allUpperAZ lastRaw && decide (2 < lastRaw.length) && decide (lastRaw.length < 15)))

/-- The party/location split as described by the amended claim C7. -/
def specSplit (text0 : Str) : Str × Str :=
  let text := trimSpace text0
  let words := fieldsStr text
  if specSplitCond words then splitAtLast words else (text, [])

/-! ### Concrete inputs for counterexamples and witnesses -/

/-- The bank-normalization entries preceding the `PAYTM PAYMEN` entry. -/
def bnFront : List (Str × Str) := bankNormalization.take 34

/-- The `PAYTM PAYMEN` entry of the bank-normalization table. -/
def bnPaytm : Str × Str := ("PAYTM PAYMEN".data, "PAYTM PAYMENTS BANK".data)

/-- The bank-normalization entries following the `PAYTM PAYMEN` entry. -/
def bnBack : List (Str × Str) := bankNormalization.drop 35

/-- The same bank-normalization map enumerated in a different order (the
`PAYTM PAYMEN` entry first) — a legitimate Go map iteration order. -/
def bankNormalizationAlt : List (Str × Str) := bnPaytm :: (bnFront ++ bnBack)

/-- A narration whose IMPS bank field `P` is a strict prefix of several
normalization-table keys, so the normalized bank name depends on the map
iteration order. -/
def cexNarrC3 : Str := "MMT/IMPS/123456789012/OK/RAMU/P".data

/-- A party field whose last token `AB` is all-uppercase alphabetic, shorter
than 15 characters and in no exception set, yet is not split off (the code
additionally requires length > 2). -/
def cexC7short : Str := "RAM AB".data

/-- A party field whose last token `DELHIx` is neither a gazetteer member
nor all-uppercase, yet is split off (the code prefix-matches the gazetteer
entry `DELHI` against the upper-cased token). -/
def cexC7prefix : Str := "RAM DELHIx".data

/-- The last token of `cexC7short`. -/
def cexC7lastShort : Str := "AB".data

/-- The last token of `cexC7prefix`. -/
def cexC7lastPfx : Str := "DELHIx".data

/-- The party-name part of `cexC7prefix`. -/
def cexC7pfxName : Str := "RAM".data

/-- A bank-name-matched identifier (counterexample/witness input). -/
def cexBankId : MatchedIdentifier := ⟨IdentifierType.bank_name.str, "B".data⟩

/-- A UPI-matched identifier (counterexample/witness input). -/
def cexUpiId : MatchedIdentifier := ⟨IdentifierType.upi_vpa.str, "U".data⟩

/-- A phone-matched identifier (witness input). -/
def cexPhoneId : MatchedIdentifier := ⟨IdentifierType.phone.str, "P".data⟩

/-- Witness narration for the matcher theorems: extracts exactly one
identifier, the UPI VPA `AB@C`. -/
def wNarr : Str := "ab@c".data

/-- Witness row: a party matched only through a bank-name identifier. -/
def wRowA : FindRow := ⟨1, "AAA".data, [], 0, IdentifierType.bank_name.str, "B1".data⟩

/-- Witness row: a party matched only through a UPI-handle identifier. -/
def wRowB : FindRow := ⟨2, "BBB".data, [], 0, IdentifierType.upi_vpa.str, "AB@C".data⟩

/-- Witness history-boost logarithm: the zero function (satisfies every
hypothesis the theorems place on `log10`). -/
def wL : Int → ℚ := fun _ => 0

/-- Witness stats row for party id 1. -/
def wStatsA : StatsRow := ⟨1, "AAA".data, [], 0, 0, none⟩

/-- Witness stats row for party id 2. -/
def wStatsB : StatsRow := ⟨2, "BBB".data, [], 0, 0, none⟩

/-- Witness collaborator for C2: identifier lookup returns the two rows,
stats lookups succeed with zero counts, the rest is empty. -/
def wQ2 : Queries :=
  { findPartiesByIdentifierValues := fun _ => .ok [wRowA, wRowB]
    getPartyWithTransactionCount := fun pid =>
      if pid = 1 then .ok wStatsA else .ok wStatsB
    getRecentTransactionsByPartyID := fun _ _ => .ok []
    findPartiesByNarrationPattern := fun _ => .ok [] }

/-- Witness collaborator for C9: identifier lookup returns the two rows,
every history/stat lookup fails. -/
def wQ9 : Queries :=
  { findPartiesByIdentifierValues := fun _ => .ok [wRowA, wRowB]
    getPartyWithTransactionCount := fun _ => .error ()
    getRecentTransactionsByPartyID := fun _ _ => .error ()
    findPartiesByNarrationPattern := fun _ => .ok [] }

/-- Witness ledger text for C4: a dated party line, one additional party
line, then a shared bank line and a shared narration line. -/
def wText4 : Str :=
  ("Apr 1 RAM KUMAR 100.00\nSHYAM LAL 50.00\nICICI 12345 150.00\nUPI/abc@ybl 150.00").data

/-- The first line of `wText4`. -/
def wLine4 : Str := "Apr 1 RAM KUMAR 100.00".data

/-- The additional party lines of `wText4`. -/
def wPls4 : List Str := ["SHYAM LAL 50.00".data]

/-- The shared bank/narration lines of `wText4`. -/
def wShared4 : List Str := ["ICICI 12345 150.00".data, "UPI/abc@ybl 150.00".data]

/-- The `datePattern` find on the first line of `wText4`. -/
def wM4 : Nat × Nat × Caps := (0, 6, [(2, 4, 5), (1, 0, 3)])

/-- Witness ledger text for C10: a dated suspense entry followed by an
undated party line of the same entry, then a fresh dated entry. -/
def wText10 : Str :=
  ("Dec 26 SUSPENSE A/C 100.00\nRAM SHYAM 50.00\nICICI 12345 50.00\nJan 1 GOPAL DAS 20.00").data

/-- The resumption point of `wText10` alone. -/
def wText10' : Str := "Jan 1 GOPAL DAS 20.00".data

/-- The suspense line of `wText10`. -/
def wSusp10 : Str := "Dec 26 SUSPENSE A/C 100.00".data

/-- The dropped middle lines of `wText10`. -/
def wRest10 : List Str := ["RAM SHYAM 50.00".data, "ICICI 12345 50.00".data]

/-- The trailing lines of `wText10`. -/
def wTail10 : List Str := ["Jan 1 GOPAL DAS 20.00".data]

/-- The `datePattern` find on the suspense line of `wText10`. -/
def wM10 : Nat × Nat × Caps := (0, 7, [(2, 4, 6), (1, 0, 3)])

/-- Witness ledger text for C6: a year-spanning date-range header followed
by one transaction line. -/
def wData6 : Str := ("15-12-2023 - 15-01-2024\nJan 1 RAM KUMAR 5.00").data

/-- Witness ledger text for C5. -/
def wText5 : Str := "Apr 1 RAM KUMAR 100.00".data

/-! ## Confidence-scoring lemmas (claims C1, C8) -/

theorem identifierWeight_pos (t : Str) : 0 < identifierWeight t := by
  unfold identifierWeight
  split_ifs <;>
    norm_num [UPIVPAWeight, PhoneWeight, AccountNumberWeight, IMPSNameWeight,
      NEFTNameWeight, BankNameWeight]

theorem identifierWeight_le_100 (t : Str) : identifierWeight t ≤ 100 := by
  unfold identifierWeight
  split_ifs <;>
    norm_num [UPIVPAWeight, PhoneWeight, AccountNumberWeight, IMPSNameWeight,
      NEFTNameWeight, BankNameWeight]

/-- A single matched identifier type scores exactly its weight. -/
theorem calcConf_single (m : MatchedIdentifier) :
    calculateConfidence [m] = identifierWeight m.type := by
  have h := identifierWeight_le_100 m.type
  simp [calculateConfidence, calcConfLoop, memStr]
  exact h

/-- Two matched identifiers of distinct types score
`w₁ + (100 − w₁)·(w₂/100)·½` (the 100-clamp is inactive). -/
theorem calcConf_pair (m1 m2 : MatchedIdentifier) (h : m1.type ≠ m2.type) :
    calculateConfidence [m1, m2] =
      identifierWeight m1.type +
        (100 - identifierWeight m1.type) * (identifierWeight m2.type / 100) * (1 / 2) := by
  have h1p := identifierWeight_pos m1.type
  have h1l := identifierWeight_le_100 m1.type
  have h2p := identifierWeight_pos m2.type
  have h2l := identifierWeight_le_100 m2.type
  have hne : ¬identifierWeight m1.type = 0 := ne_of_gt h1p
  have hcl :
      identifierWeight m1.type +
        (100 - identifierWeight m1.type) * (identifierWeight m2.type / 100) * (1 / 2) ≤
        100 := by nlinarith
  simp [calculateConfidence, calcConfLoop, memStr, h, hne]
  linarith [hcl]

theorem weight_upi : identifierWeight IdentifierType.upi_vpa.str = 95 := by
  unfold identifierWeight
  rw [if_pos rfl]
  norm_num [UPIVPAWeight]

theorem weight_phone : identifierWeight IdentifierType.phone.str = 85 := by
  unfold identifierWeight
  rw [if_neg (by decide), if_pos rfl]
  norm_num [PhoneWeight]

theorem weight_bank : identifierWeight IdentifierType.bank_name.str = 20 := by
  unfold identifierWeight
  rw [if_neg (by decide), if_neg (by decide), if_neg (by decide),
      if_neg (by decide), if_neg (by decide), if_pos rfl]
  norm_num [BankNameWeight]

/-- C1 (counterexample): the cumulative confidence formula is NOT
order-independent.  The same two distinct matched identifier types — a UPI
handle (weight 95) and a bank name (weight 20) — yield 95.5 when the UPI
type is processed first but 58 when the bank name is processed first, so
permuting the types changes the final confidence. -/
theorem C1_counterexample :
    [cexUpiId, cexBankId].Perm [cexBankId, cexUpiId] ∧
    cexUpiId.type ≠ cexBankId.type ∧
    calculateConfidence [cexUpiId, cexBankId] = 191 / 2 ∧
    calculateConfidence [cexBankId, cexUpiId] = 58 ∧
    calculateConfidence [cexUpiId, cexBankId] ≠
      calculateConfidence [cexBankId, cexUpiId] := by
  have hne : cexUpiId.type ≠ cexBankId.type := by decide
  have e1 : calculateConfidence [cexUpiId, cexBankId] = 191 / 2 := by
    rw [calcConf_pair _ _ hne]
    simp only [cexUpiId, cexBankId]
    rw [weight_upi, weight_bank]
    norm_num
  have e2 : calculateConfidence [cexBankId, cexUpiId] = 58 := by
    rw [calcConf_pair _ _ (Ne.symm hne)]
    simp only [cexUpiId, cexBankId]
    rw [weight_upi, weight_bank]
    norm_num
  exact ⟨List.Perm.swap _ _ _, hne, e1, e2, by rw [e1, e2]; norm_num⟩

/-- C1 (amended): for two distinct matched identifier types, the cumulative
confidence formula gives the same result in both orders exactly when the two
types carry equal weights; in general the result depends on the processing
order. -/
theorem C1_order_independence_iff (m1 m2 : MatchedIdentifier)
    (h : m1.type ≠ m2.type) :
    calculateConfidence [m1, m2] = calculateConfidence [m2, m1] ↔
      identifierWeight m1.type = identifierWeight m2.type := by
  rw [calcConf_pair m1 m2 h, calcConf_pair m2 m1 (Ne.symm h)]
  constructor
  · intro heq
    nlinarith [heq]
  · intro heq
    rw [heq]

/-- Witness for `C1_order_independence_iff` at the UPI/bank-name pair. -/
theorem C1_witness :
    cexUpiId.type ≠ cexBankId.type ∧
    (calculateConfidence [cexUpiId, cexBankId] =
        calculateConfidence [cexBankId, cexUpiId] ↔
      identifierWeight cexUpiId.type = identifierWeight cexBankId.type) :=
  ⟨by decide, C1_order_independence_iff cexUpiId cexBankId (by decide)⟩

/-- C8: confidence is monotone in evidence — adding a second distinct matched
identifier type (of any weight, the unknown-type default 50 included) never
decreases a candidate's confidence relative to the first type alone. -/
theorem C8_monotone_confidence (m1 m2 : MatchedIdentifier)
    (h : m1.type ≠ m2.type) :
    calculateConfidence [m1] ≤ calculateConfidence [m1, m2] := by
  rw [calcConf_single, calcConf_pair m1 m2 h]
  nlinarith [identifierWeight_pos m1.type, identifierWeight_le_100 m1.type,
    identifierWeight_pos m2.type, identifierWeight_le_100 m2.type]

/-- Witness for `C8_monotone_confidence` at the UPI/phone pair. -/
theorem C8_witness :
    cexUpiId.type ≠ cexPhoneId.type ∧
    calculateConfidence [cexUpiId] ≤ calculateConfidence [cexUpiId, cexPhoneId] :=
  ⟨by decide, C8_monotone_confidence cexUpiId cexPhoneId (by decide)⟩

/-! ## Extractor determinism and deduplication (claim C3) -/

/-- One `addIfNew` step preserves the `Extract` invariant: the collected
identifiers are duplicate-free and every collected identifier's key is in
the seen set. -/
theorem addIfNew_inv (st : ExState) (t : IdentifierType) (v : Str)
    (h1 : st.1.Nodup)
    (h2 : ∀ idf ∈ st.1, memStr st.2 (idKey idf.type idf.value) = true) :
    (addIfNew st t v).1.Nodup ∧
      ∀ idf ∈ (addIfNew st t v).1,
        memStr (addIfNew st t v).2 (idKey idf.type idf.value) = true := by
  unfold addIfNew
  dsimp only
  split
  · exact ⟨h1, h2⟩
  · next hnot =>
    have hmem : (⟨t, v⟩ : Identifier) ∉ st.1 := by
      intro hm
      exact hnot (h2 _ hm)
    refine ⟨?_, ?_⟩
    · exact List.Nodup.append h1 (List.nodup_singleton _)
        (by simp [List.disjoint_singleton]; exact hmem)
    · intro idf hidf
      rcases List.mem_append.mp hidf with hold | hnew
      · have := h2 _ hold
        simp [memStr] at this ⊢
        exact Or.inr this
      · simp at hnew
        subst hnew
        simp [memStr]

/-- Folding any candidate stream through `addIfNew` from an invariant state
yields a duplicate-free identifier list. -/
theorem addFold_nodup (cands : List (IdentifierType × Str)) :
    ∀ st : ExState, st.1.Nodup →
      (∀ idf ∈ st.1, memStr st.2 (idKey idf.type idf.value) = true) →
      ((cands.foldl (fun st tv => addIfNew st tv.1 tv.2) st).1).Nodup := by
  induction cands with
  | nil => exact fun st h1 _ => h1
  | cons c cs ih =>
    intro st h1 h2
    have h := addIfNew_inv st c.1 c.2 h1 h2
    exact ih _ h.1 h.2

/-- C3 (amended): for each fixed enumeration order of the bank-normalization
table, extraction is deterministic (it is a pure function of the narration:
two calls agree, in order) and its output never contains the same
`(type, value)` identifier twice, no matter how often the pattern rules
match it. -/
theorem C3_deterministic_and_dedup (table : List (Str × Str)) (n : Str) :
    ExtractWith table n = ExtractWith table n ∧ (ExtractWith table n).Nodup := by
  refine ⟨rfl, ?_⟩
  unfold ExtractWith
  exact addFold_nodup _ _ List.nodup_nil (by intro idf h; cases h)

/-- C3 (counterexample): `Extract` as implemented is *not* deterministic
across runs.  `normalizeBank`'s prefix-fallback ranges over a Go map, whose
iteration order is unspecified and randomized; for a narration whose IMPS
bank field is `P`, one legitimate enumeration order of the very same table
normalizes it to `PUNJAB NATIONAL BANK` and another to
`PAYTM PAYMENTS BANK`, so two calls with the same narration can return
different identifier lists. -/
theorem C3_counterexample :
    bankNormalization.Perm bankNormalizationAlt ∧
    ExtractWith bankNormalizationAlt cexNarrC3 ≠ Extract cexNarrC3 := by
  constructor
  · have h : bankNormalization = bnFront ++ bnPaytm :: bnBack := by decide
    rw [h]
    exact List.perm_middle
  · decide

/-! ## Parser invariants (claims C5, C10) -/

/-- Closing a transaction does not change its party name, so it preserves
`noSuspense`. -/
theorem noSuspense_finishTx (tx : Transaction) (narr : List Str) :
    noSuspense (finishTx tx narr) = noSuspense tx := rfl

/-- The state-machine invariant behind the suspense exclusion: if every
already-emitted transaction and the current transaction (when any) are free
of the suspense marker, so is everything the loop will ever emit — every
newly opened transaction passes the marker check before becoming current. -/
theorem parseLoop_noSuspense (year : Int) :
    ∀ (lines : List Str) (cur : Option Transaction) (narr : List Str)
      (d : GoDate) (acc : List Transaction),
      acc.all noSuspense = true →
      (∀ tx, cur = some tx → noSuspense tx = true) →
      (parseLoop year lines cur narr d acc).all noSuspense = true := by
  intro lines
  induction lines with
  | nil =>
    intro cur narr d acc hacc hcur
    cases cur with
    | none => simpa [parseLoop] using hacc
    | some tx =>
      simp [parseLoop, List.all_append, hacc, noSuspense_finishTx]
      have := hcur tx rfl
      simpa [noSuspense] using this
  | cons l rest ih =>
    intro cur narr d acc hacc hcur
    simp only [parseLoop]
    split
    · exact ih cur narr d acc hacc hcur
    · cases hm : reFind datePattern (trimSpace l) with
      | some m =>
        simp only
        have hacc' :
            (match cur with
              | some tx => acc ++ [finishTx tx narr]
              | none => acc).all noSuspense = true := by
          cases cur with
          | none => exact hacc
          | some tx =>
            simp [List.all_append, hacc, noSuspense_finishTx]
            have := hcur tx rfl
            simpa [noSuspense] using this
        split
        · exact ih _ _ _ _ hacc' (by intro tx h; cases h)
        · next hns =>
          refine ih _ _ _ _ hacc' ?_
          intro tx h
          injection h with h
          subst h
          simpa [noSuspense] using hns
      | none =>
        cases cur with
        | none => exact ih _ _ _ _ hacc hcur
        | some tx =>
          simp only
          split
          · exact ih _ _ _ _ hacc hcur
          · split
            · have hacc' : (acc ++ [finishTx tx narr]).all noSuspense = true := by
                simp [List.all_append, hacc, noSuspense_finishTx]
                have := hcur tx rfl
                simpa [noSuspense] using this
              split
              · exact ih _ _ _ _ hacc' (by intro tx' h; cases h)
              · next hns =>
                refine ih _ _ _ _ hacc' ?_
                intro tx' h
                injection h with h
                subst h
                simpa [noSuspense] using hns
            · exact ih _ _ _ _ hacc hcur

/-- C5: no transaction `Parse` emits has a party name containing the
suspense-account marker `SUSPENSE A/C` (case-insensitively): such entries
are discarded at parse time. -/
theorem C5_suspense_excluded (text : Str) (year : Int) :
    (Parse text year).all noSuspense = true := by
  unfold Parse
  exact parseLoop_noSuspense year _ none [] zeroDate [] rfl (by intro tx h; cases h)

/-- While no transaction is current, lines that are skipped or undated are
consumed without any effect on the output. -/
theorem parseLoop_skipNoCur (year : Int) :
    ∀ (rest tail : List Str) (narr : List Str) (d : GoDate)
      (acc : List Transaction),
      (∀ l ∈ rest, shouldSkipLine (trimSpace l) = true ∨
        reFind datePattern (trimSpace l) = none) →
      parseLoop year (rest ++ tail) none narr d acc =
        parseLoop year tail none narr d acc := by
  intro rest
  induction rest with
  | nil => intro tail narr d acc _; rfl
  | cons l rest' ih =>
    intro tail narr d acc h
    have hl := h l (List.mem_cons_self l rest')
    rw [List.cons_append, parseLoop]
    split
    · exact ih tail narr d acc (fun x hx => h x (List.mem_cons_of_mem l hx))
    · next hskip =>
      rcases hl with hl | hl
      · exact absurd hl hskip
      · rw [hl]
        exact ih tail narr d acc (fun x hx => h x (List.mem_cons_of_mem l hx))

/-- With no current transaction, the narration buffer and the remembered
date are invisible: the loop's output does not depend on them. -/
theorem parseLoop_none_state_indep (year : Int) :
    ∀ (tail : List Str) (narr narr' : List Str) (d d' : GoDate)
      (acc : List Transaction),
      parseLoop year tail none narr d acc = parseLoop year tail none narr' d' acc := by
  intro tail
  induction tail with
  | nil => intro narr narr' d d' acc; rfl
  | cons l rest ih =>
    intro narr narr' d d' acc
    rw [parseLoop, parseLoop]
    split
    · exact ih narr narr' d d' acc
    · cases hm : reFind datePattern (trimSpace l) with
      | some m => rfl
      | none => exact ih narr narr' d d' acc

/-- C10: a dated transaction-start line whose party name contains
`SUSPENSE A/C` drops not only its own entry but every following line up to
the next dated transaction-start line: the additional party lines of the
multi-party entry produce no transactions and its bank/narration lines are
attached to nothing, so parsing the whole text equals parsing the remainder
that starts at the next dated line. -/
theorem C10_suspense_drops_entry (year : Int) (text text' susp : Str)
    (rest tail : List Str) (m : Nat × Nat × Caps)
    (hsplit : splitChar '\n' text = susp :: (rest ++ tail))
    (hsplit' : splitChar '\n' text' = tail)
    (hskip : shouldSkipLine (trimSpace susp) = false)
    (hdate : reFind datePattern (trimSpace susp) = some m)
    (hsusp : strContains
      (toUpperStr (parseFirstLine (trimSpace susp) m year).partyName)
      suspenseMarker = true)
    (hrest : ∀ l ∈ rest, shouldSkipLine (trimSpace l) = true ∨
      reFind datePattern (trimSpace l) = none) :
    Parse text year = Parse text' year := by
  unfold Parse
  rw [hsplit, hsplit']
  rw [parseLoop]
  rw [if_neg (by simp [hskip]), hdate]
  simp only [hsusp, if_true]
  rw [parseLoop_skipNoCur year rest tail [] _ [] hrest]
  exact parseLoop_none_state_indep year tail [] [] _ zeroDate []

/-- Witness for `C10_suspense_drops_entry`: a concrete four-line ledger whose
dated suspense entry swallows its extra party line and its bank line, and
whose parse equals the parse of the final dated line alone. -/
theorem C10_witness : Parse wText10 2025 = Parse wText10' 2025 :=
  C10_suspense_drops_entry 2025 wText10 wText10' wSusp10 wRest10 wTail10 wM10
    (by decide) (by decide) (by decide) (by decide) (by decide)
    (by
      intro l hl
      simp only [wRest10, List.mem_cons, List.not_mem_nil, or_false] at hl
      rcases hl with rfl | rfl
      · exact Or.inr (by decide)
      · exact Or.inr (by decide))

/-! ## Multi-party entries (claim C4) -/

/-- While a transaction is current, lines that neither start a dated
transaction nor are party lines only feed the narration buffer (skipped
lines feed nothing); at end of input the current transaction is flushed
with everything accumulated. -/
theorem parseLoop_sharedPhase (year : Int) :
    ∀ (shared : List Str) (tx : Transaction) (narr : List Str) (d : GoDate)
      (acc : List Transaction),
      (∀ l ∈ shared, reFind datePattern (trimSpace l) = none ∧
        isPartyLine (trimSpace l) = false) →
      parseLoop year shared (some tx) narr d acc =
        acc ++ [finishTx tx (shared.foldl
          (fun a l =>
            let t := trimSpace l
            if shouldSkipLine t then a else appendNarr a t) narr)] := by
  intro shared
  induction shared with
  | nil => intro tx narr d acc _; rfl
  | cons l rest ih =>
    intro tx narr d acc h
    obtain ⟨hd, hp⟩ := h l (List.mem_cons_self _ _)
    have hrest := fun x hx => h x (List.mem_cons_of_mem l hx)
    simp only [parseLoop]
    split
    · next hskip =>
      rw [ih tx narr d acc hrest]
      simp only [List.foldl_cons]
      rw [if_pos hskip]
    · next hskip =>
      rw [hd]
      simp only
      split
      · rw [ih tx _ d acc hrest]
        simp only [List.foldl_cons]
        rw [if_neg hskip]
      · rw [if_neg (by simp [hp]), ih tx _ d acc hrest]
        simp only [List.foldl_cons]
        rw [if_neg hskip]

/-- Each additional party line flushes the current transaction with an empty
narration buffer and opens a new transaction inheriting the last seen date;
the whole entry parses to `flushedEntry`. -/
theorem parseLoop_partyPhase (year : Int) :
    ∀ (pls shared : List Str) (tx : Transaction) (d : GoDate)
      (acc : List Transaction),
      (∀ l ∈ pls, shouldSkipLine (trimSpace l) = false ∧
        reFind datePattern (trimSpace l) = none ∧
        reMatchB bankAccountPattern (trimSpace l) = false ∧
        isPartyLine (trimSpace l) = true ∧
        strContains (toUpperStr (parsePartyLine (trimSpace l) d).partyName)
          suspenseMarker = false) →
      (∀ l ∈ shared, reFind datePattern (trimSpace l) = none ∧
        isPartyLine (trimSpace l) = false) →
      parseLoop year (pls ++ shared) (some tx) [] d acc =
        acc ++ flushedEntry tx pls d shared := by
  intro pls
  induction pls with
  | nil =>
    intro shared tx d acc _ hsh
    rw [List.nil_append, parseLoop_sharedPhase year shared tx [] d acc hsh]
    rfl
  | cons l rest ih =>
    intro shared tx d acc h hsh
    obtain ⟨hskip, hd, hbank, hparty, hsusp⟩ := h l (List.mem_cons_self _ _)
    have hrest := fun x hx => h x (List.mem_cons_of_mem l hx)
    rw [List.cons_append]
    simp only [parseLoop]
    rw [if_neg (by simp [hskip]), hd]
    simp only
    rw [if_neg (by simp [hbank]), if_pos hparty, if_neg (by simp [hsusp])]
    rw [ih shared _ d (acc ++ [finishTx tx []]) hrest hsh]
    simp [flushedEntry, List.append_assoc]

theorem flushedEntry_ne_nil (tx : Transaction) (pls : List Str) (d : GoDate)
    (shared : List Str) : flushedEntry tx pls d shared ≠ [] := by
  cases pls <;> simp [flushedEntry]

theorem flushedEntry_length (tx : Transaction) (pls : List Str) (d : GoDate)
    (shared : List Str) : (flushedEntry tx pls d shared).length = 1 + pls.length := by
  induction pls generalizing tx with
  | nil => simp [flushedEntry]
  | cons l rest ih => simp [flushedEntry, ih]; omega

theorem flushedEntry_dates (tx : Transaction) (pls : List Str) (d : GoDate)
    (shared : List Str) (h : tx.date = d) :
    ∀ t ∈ flushedEntry tx pls d shared, t.date = d := by
  induction pls generalizing tx with
  | nil =>
    intro t ht
    simp [flushedEntry] at ht
    subst ht
    exact h
  | cons l rest ih =>
    intro t ht
    simp only [flushedEntry, List.mem_cons] at ht
    rcases ht with rfl | ht
    · exact h
    · exact ih (parsePartyLine (trimSpace l) d) rfl t ht

theorem flushedEntry_dropLast (tx : Transaction) (pls : List Str) (d : GoDate)
    (shared : List Str) :
    ∀ t ∈ (flushedEntry tx pls d shared).dropLast,
      t.narration = [] ∧ t.paymentMode = "OTHER".data := by
  induction pls generalizing tx with
  | nil => intro t ht; simp [flushedEntry] at ht
  | cons l rest ih =>
    intro t ht
    rw [flushedEntry,
      List.dropLast_cons_of_ne_nil (flushedEntry_ne_nil _ _ _ _)] at ht
    rcases List.mem_cons.mp ht with rfl | ht
    · refine ⟨rfl, ?_⟩
      show detectPaymentMode (buildNarration []) = _
      decide
    · exact ih (parsePartyLine (trimSpace l) d) t ht

theorem flushedEntry_last (tx : Transaction) (pls : List Str) (d : GoDate)
    (shared : List Str) :
    ∃ tl, (flushedEntry tx pls d shared).getLast? = some tl ∧
      tl.narration = buildNarration (sharedNarrOf shared) ∧
      tl.paymentMode = detectPaymentMode (buildNarration (sharedNarrOf shared)) := by
  induction pls generalizing tx with
  | nil => exact ⟨finishTx tx (sharedNarrOf shared), rfl, rfl, rfl⟩
  | cons l rest ih =>
    obtain ⟨tl, htl, hn, hm⟩ := ih (parsePartyLine (trimSpace l) d)
    refine ⟨tl, ?_, hn, hm⟩
    rw [flushedEntry]
    cases hres : flushedEntry (parsePartyLine (trimSpace l) d) rest d shared with
    | nil => exact absurd hres (flushedEntry_ne_nil _ _ _ _)
    | cons b bl =>
      rw [hres] at htl
      rw [List.getLast?_cons_cons]
      exact htl

/-- C4: a ledger entry made of one dated party line, `N−1` additional
(undated) party lines and only then the shared bank/narration lines parses
to exactly `N` transactions; all of them carry the date of the dated line
(the additional parties inherit it), the first `N−1` have an empty narration
(and hence payment mode `OTHER`), and only the last carries the shared
narration and the payment mode derived from it. -/
theorem C4_multiparty (year : Int) (text L0 : Str) (pls shared : List Str)
    (m : Nat × Nat × Caps)
    (hsplit : splitChar '\n' text = L0 :: (pls ++ shared))
    (hskip : shouldSkipLine (trimSpace L0) = false)
    (hdate : reFind datePattern (trimSpace L0) = some m)
    (hsusp : strContains
      (toUpperStr (parseFirstLine (trimSpace L0) m year).partyName)
      suspenseMarker = false)
    (hpls : ∀ l ∈ pls, shouldSkipLine (trimSpace l) = false ∧
      reFind datePattern (trimSpace l) = none ∧
      reMatchB bankAccountPattern (trimSpace l) = false ∧
      isPartyLine (trimSpace l) = true ∧
      strContains (toUpperStr
          (parsePartyLine (trimSpace l)
            (parseFirstLine (trimSpace L0) m year).date).partyName)
        suspenseMarker = false)
    (hsh : ∀ l ∈ shared, reFind datePattern (trimSpace l) = none ∧
      isPartyLine (trimSpace l) = false) :
    Parse text year =
        flushedEntry (parseFirstLine (trimSpace L0) m year) pls
          (parseFirstLine (trimSpace L0) m year).date shared ∧
    (Parse text year).length = 1 + pls.length ∧
    (∀ t ∈ Parse text year,
      t.date = (parseFirstLine (trimSpace L0) m year).date) ∧
    (∀ t ∈ (Parse text year).dropLast,
      t.narration = [] ∧ t.paymentMode = "OTHER".data) ∧
    ((Parse text year).getLast?).map Transaction.narration =
      some (buildNarration (sharedNarrOf shared)) ∧
    ((Parse text year).getLast?).map Transaction.paymentMode =
      some (detectPaymentMode (buildNarration (sharedNarrOf shared))) := by
  have hmain : Parse text year =
      flushedEntry (parseFirstLine (trimSpace L0) m year) pls
        (parseFirstLine (trimSpace L0) m year).date shared := by
    unfold Parse
    rw [hsplit]
    simp only [parseLoop]
    rw [if_neg (by simp [hskip]), hdate]
    simp only
    rw [if_neg (by simp [hsusp])]
    rw [parseLoop_partyPhase year pls shared _ _ [] hpls hsh]
    rfl
  obtain ⟨tl, htl, hn, hm'⟩ :=
    flushedEntry_last (parseFirstLine (trimSpace L0) m year) pls
      (parseFirstLine (trimSpace L0) m year).date shared
  refine ⟨hmain, ?_, ?_, ?_, ?_, ?_⟩
  · rw [hmain]; exact flushedEntry_length _ _ _ _
  · rw [hmain]; exact flushedEntry_dates _ _ _ _ rfl
  · rw [hmain]; exact flushedEntry_dropLast _ _ _ _
  · rw [hmain, htl, Option.map_some', hn]
  · rw [hmain, htl, Option.map_some', hm']

/-- Witness for `C4_multiparty`: a concrete two-party entry (dated line plus
one undated party line) sharing a bank line and a UPI narration line. -/
theorem C4_witness :
    (Parse wText4 2025).length = 1 + wPls4.length ∧
    (∀ t ∈ Parse wText4 2025,
      t.date = (parseFirstLine (trimSpace wLine4) wM4 2025).date) := by
  have h := C4_multiparty 2025 wText4 wLine4 wPls4 wShared4 wM4
    (by decide) (by decide) (by decide) (by decide)
    (by
      intro l hl
      simp only [wPls4, List.mem_cons, List.not_mem_nil, or_false] at hl
      subst hl
      exact ⟨by decide, by decide, by decide, by decide, by decide⟩)
    (by
      intro l hl
      simp only [wShared4, List.mem_cons, List.not_mem_nil, or_false] at hl
      rcases hl with rfl | rfl
      · exact ⟨by decide, by decide⟩
      · exact ⟨by decide, by decide⟩)
  exact ⟨h.2.1, h.2.2.1⟩

/-! ## Party/location split (claim C7) -/

theorem strStarts_self : ∀ l : Str, strStarts l l = true := by
  intro l
  induction l with
  | nil => rfl
  | cons c cs ih => simp [strStarts, ih]

theorem toUpper_eq_of_cUpper (c : Char) (h : cUpper c = true) : c.toUpper = c := by
  unfold cUpper at h
  simp only [Bool.and_eq_true, decide_eq_true_eq] at h
  unfold Char.toUpper
  rw [if_neg]
  have h2 : c.toNat ≤ 90 := by
    have hz := h.2
    simp only [Char.le_def] at hz
    exact UInt32.toNat_le_of_le (by norm_num) hz
  omega

/-- Upper-casing fixes a string that is already all `A`–`Z`. -/
theorem toUpperStr_of_allUpperAZ (w : Str) (h : allUpperAZ w = true) :
    toUpperStr w = w := by
  induction w with
  | nil => rfl
  | cons c cs ih =>
    unfold allUpperAZ at h
    simp only [List.all_cons, Bool.and_eq_true] at h
    simp only [toUpperStr, List.map_cons, toUpper_eq_of_cUpper c h.1,
      List.cons.injEq, true_and]
    exact ih h.2

/-- The equality test inside the gazetteer loop is subsumed by the prefix
test. -/
theorem eq_or_starts (a b : Str) :
    (decide (a = b) || strStarts b a) = strStarts b a := by
  by_cases h : a = b
  · subst h
    simp [strStarts_self]
  · simp [h]

/-- The gazetteer loop, closed form: it returns the split exactly when some
entry prefix-matches (or equals) the last word and the input has more than
one word. -/
theorem gazScan_eq (words : List Str) (lw : Str) :
    ∀ l : List Str, gazScan words lw l =
      if (l.any (fun loc => decide (lw = loc) || strStarts loc lw)) &&
          decide (words.length > 1)
      then some (splitAtLast words) else none := by
  intro l
  induction l with
  | nil => simp [gazScan]
  | cons loc rest ih =>
    by_cases hlen : words.length > 1
    · by_cases hhit : (decide (lw = loc) || strStarts loc lw) = true
      · simp [gazScan, hhit, hlen]
      · simp only [Bool.or_eq_true] at hhit
        push_neg at hhit
        simp [gazScan, hhit.1, hhit.2, hlen, ih]
    · simp [gazScan, hlen, ih]

/-- C7 (amended): the party/location split characterized — a multi-word
party field splits off its last token as the location exactly when the
upper-cased token is outside the "not a location" set and either extends a
gazetteer entry (has it as a prefix, equality included) or is, as written,
an all-uppercase alphabetic token of length 3 to 14; single-token inputs
never split. -/
theorem C7_split_characterization (text0 : Str) :
    parsePartyNameLocation text0 = specSplit text0 := by
  unfold parsePartyNameLocation specSplit
  dsimp only
  cases hw : fieldsStr (trimSpace text0) with
  | nil => simp [specSplitCond]
  | cons w ws =>
    have hne : w :: ws ≠ [] := by simp
    have hsome : (w :: ws).getLast? = some ((w :: ws).getLast hne) :=
      List.getLast?_eq_getLast _ hne
    simp only [hsome, Option.getD_some, specSplitCond]
    rw [gazScan_eq]
    have hfun :
        (fun loc => decide (toUpperStr ((w :: ws).getLast hne) = loc) ||
            strStarts loc (toUpperStr ((w :: ws).getLast hne))) =
          (fun loc => strStarts loc (toUpperStr ((w :: ws).getLast hne))) :=
      funext (fun loc => eq_or_starts _ loc)
    rw [hfun]
    by_cases hmem : toUpperStr ((w :: ws).getLast hne) ∈ nonLocationWords
    · simp [hmem]
    · by_cases hlen : 0 < ws.length
      · by_cases hgaz : ∃ x ∈ locationIndicators,
            strStarts x (toUpperStr ((w :: ws).getLast hne)) = true
        · simp [hmem, hlen, hgaz]
        · by_cases hall : allUpperAZ ((w :: ws).getLast hne) = true
          · have hupeq : toUpperStr ((w :: ws).getLast hne) = (w :: ws).getLast hne :=
              toUpperStr_of_allUpperAZ _ hall
            rw [hupeq] at hmem hgaz ⊢
            by_cases h15 : List.length ((w :: ws).getLast hne) < 15
            · by_cases h2 : 2 < List.length ((w :: ws).getLast hne)
              · simp [hmem, hlen, hgaz, hall, h15, h2]
              · simp [hmem, hlen, hgaz, hall, h15, h2]
            · simp [hmem, hlen, hgaz, hall, h15]
          · by_cases hUL :
                toUpperStr ((w :: ws).getLast hne) = (w :: ws).getLast hne
            · rw [hUL] at hmem hgaz ⊢
              simp [hmem, hlen, hgaz, hall]
            · simp [hmem, hlen, hgaz, hall, hUL]
      · simp [hmem, hlen]

/-- C7 (counterexample): the claimed split criterion is wrong in both
directions.  For `RAM AB` the last token is an all-uppercase alphabetic
token shorter than 15 characters outside the exception set — the claim says
it becomes the location — yet the code does not split (it additionally
requires length > 2).  For `RAM DELHIx` the last token is in no gazetteer
and not all-uppercase — the claim says no split — yet the code splits it
off (gazetteer entries are matched as *prefixes* of the upper-cased
token). -/
theorem C7_counterexample :
    parsePartyNameLocation cexC7short = (cexC7short, []) ∧
    (fieldsStr cexC7short).getLast? = some cexC7lastShort ∧
    1 < (fieldsStr cexC7short).length ∧
    allUpperAZ cexC7lastShort = true ∧
    cexC7lastShort.length < 15 ∧
    cexC7lastShort ∉ nonLocationWords ∧
    cexC7lastShort ∉ locationIndicators ∧
    parsePartyNameLocation cexC7prefix = (cexC7pfxName, cexC7lastPfx) ∧
    cexC7lastPfx ∉ locationIndicators ∧
    allUpperAZ cexC7lastPfx = false := by
  decide

/-! ## Year derivation from the header (claim C6, spec-modelled) -/

/-- C6: when the caller supplies no reference year (`yearField = none`) and
the ledger text contains a `DD-MM-YYYY - DD-MM-YYYY` date-range header whose
second date is the later one, the year used to anchor all parsed month/day
dates is the year of that later (second) header date — both in
`ExtractYearFromHeader` (modelled from the spec, its implementation being
absent from `src/`) and in the import handler's year determination, whose
parse call then runs with exactly that year. -/
theorem C6_header_year (data : Str) (cy : Int) (d1 d2 : GoDate)
    (hhd : headerDates data = some (d1, d2))
    (hle : dateLeB d1 d2 = true)
    (hpos : 0 < d2.year) :
    ExtractYearFromHeader data = d2.year ∧
    previewYear data none cy = d2.year ∧
    importPreviewTransactions data none cy = Parse data d2.year := by
  have he : ExtractYearFromHeader data = d2.year := by
    unfold ExtractYearFromHeader
    rw [hhd]
    simp [hle]
  have hp : previewYear data none cy = d2.year := by
    unfold previewYear
    dsimp only
    rw [he, if_pos hpos]
  exact ⟨he, hp, by unfold importPreviewTransactions; rw [hp]⟩

/-- Witness for `C6_header_year`: a ledger whose header spans December 2023
to January 2024; the year used is 2024. -/
theorem C6_witness :
    ExtractYearFromHeader wData6 = 2024 ∧
    previewYear wData6 none 2026 = 2024 ∧
    importPreviewTransactions wData6 none 2026 = Parse wData6 2024 :=
  C6_header_year wData6 2026 ⟨2023, 12, 15⟩ ⟨2024, 1, 15⟩
    (by decide) (by decide) (by decide)

/-! ## Matcher: soft failure of history lookups (claim C9) -/

theorem insertResDesc_perm (r : MatchResult) (l : List MatchResult) :
    (insertResDesc r l).Perm (r :: l) := by
  induction l with
  | nil => exact List.Perm.refl _
  | cons u us ih =>
    unfold insertResDesc
    split
    · exact List.Perm.refl _
    · exact (ih.cons u).trans (List.Perm.swap r u us)

theorem sortResults_perm (l : List MatchResult) :
    (sortResultsByConfDesc l).Perm l := by
  induction l with
  | nil => exact List.Perm.refl _
  | cons r rs ih =>
    unfold sortResultsByConfDesc at ih ⊢
    simp only [List.foldr_cons]
    exact (insertResDesc_perm r _).trans (ih.cons r)

/-- The count component of one aggregation step: recent-transaction lookups
do not affect it; a failing stats lookup leaves it unchanged. -/
theorem aggStep_fst (q : Queries) (acc : Int × ℚ × List GoTxn) (pid : Int) :
    (aggStep q acc pid).1 =
      match q.getPartyWithTransactionCount pid with
      | .ok s => acc.1 + s.transactionCount
      | .error _ => acc.1 := by
  unfold aggStep
  cases q.getPartyWithTransactionCount pid with
  | ok s => cases q.getRecentTransactionsByPartyID pid 5 <;> rfl
  | error e => cases q.getRecentTransactionsByPartyID pid 5 <;> rfl

theorem aggStats_stats_err (q : Queries) :
    ∀ (ids : List Int) (acc : Int × ℚ × List GoTxn),
      (∀ pid ∈ ids, q.getPartyWithTransactionCount pid = .error ()) →
      (ids.foldl (aggStep q) acc).1 = acc.1 := by
  intro ids
  induction ids with
  | nil => intro acc _; rfl
  | cons pid rest ih =>
    intro acc h
    rw [List.foldl_cons, ih _ (fun x hx => h x (List.mem_cons_of_mem _ hx)),
      aggStep_fst, h pid (List.mem_cons_self _ _)]

/-- The recent-transactions component of one aggregation step is unchanged
when the recent lookup fails. -/
theorem aggStep_recent_err (q : Queries) (acc : Int × ℚ × List GoTxn) (pid : Int)
    (h : q.getRecentTransactionsByPartyID pid 5 = .error ()) :
    (aggStep q acc pid).2.2 = acc.2.2 := by
  unfold aggStep
  rw [h]
  cases q.getPartyWithTransactionCount pid <;> rfl

theorem aggStats_recent_err (q : Queries) :
    ∀ (ids : List Int) (acc : Int × ℚ × List GoTxn),
      (∀ pid ∈ ids, q.getRecentTransactionsByPartyID pid 5 = .error ()) →
      (ids.foldl (aggStep q) acc).2.2 = acc.2.2 := by
  intro ids
  induction ids with
  | nil => intro acc _; rfl
  | cons pid rest ih =>
    intro acc h
    rw [List.foldl_cons, ih _ (fun x hx => h x (List.mem_cons_of_mem _ hx)),
      aggStep_recent_err q acc pid (h pid (List.mem_cons_self _ _))]

theorem historyBoost_zero (L : Int → ℚ) (conf : ℚ) : historyBoost L conf 0 = conf := by
  unfold historyBoost
  simp

/-- Enrichment never changes a candidate's identity or evidence. -/
theorem enrichIdent_id (q : Queries) (L : Int → ℚ) (r : MatchResult) :
    (enrichIdent q L r).party = r.party ∧
    (enrichIdent q L r).partyIDs = r.partyIDs ∧
    (enrichIdent q L r).matchedOn = r.matchedOn := ⟨rfl, rfl, rfl⟩

/-- If every stats lookup for the candidate's ids fails, the candidate keeps
its base identifier confidence (count 0, no boost). -/
theorem enrichIdent_stats_err (q : Queries) (L : Int → ℚ) (r : MatchResult)
    (h : ∀ pid ∈ r.partyIDs, q.getPartyWithTransactionCount pid = .error ()) :
    (enrichIdent q L r).confidence = calculateConfidence r.matchedOn ∧
    (enrichIdent q L r).transactionCount = 0 := by
  unfold enrichIdent
  dsimp only
  have hz : (aggStats q r.partyIDs).1 = 0 := aggStats_stats_err q _ _ h
  rw [hz, historyBoost_zero]
  exact ⟨rfl, rfl⟩

/-- If every recent-transactions lookup for the candidate's ids fails, the
candidate carries no history data. -/
theorem enrichIdent_recent_err (q : Queries) (L : Int → ℚ) (r : MatchResult)
    (h : ∀ pid ∈ r.partyIDs, q.getRecentTransactionsByPartyID pid 5 = .error ()) :
    (enrichIdent q L r).recentTxns = [] := by
  unfold enrichIdent
  dsimp only
  have hz : (aggStats q r.partyIDs).2.2 = [] := aggStats_recent_err q _ _ h
  rw [hz]
  rfl

/-- The identifier path of `Match`, in closed form: with a non-empty
extraction and a successful, non-empty identifier lookup, `Match` returns
(no error) the grouped, enriched, sorted candidates. -/
theorem Match_ok (q : Queries) (L : Int → ℚ) (n : Str) (rows : List FindRow)
    (hne : Extract n ≠ [])
    (hfind : q.findPartiesByIdentifierValues ((Extract n).map (·.value)) = .ok rows)
    (hrows : rows ≠ []) :
    Match q L n =
      .ok (sortResultsByConfDesc ((groupMatches rows).map (enrichIdent q L))) := by
  unfold Match
  dsimp only
  rw [if_neg (by simp [List.isEmpty_iff, hne]), hfind]
  dsimp only
  rw [if_neg (by simp [List.isEmpty_iff, hrows])]

/-- C9: a failure of the per-party transaction-stats lookup or of the
recent-transactions lookup never removes a candidate from the returned list
and never aborts the overall match: every grouped candidate is still
returned with its identity and matched identifiers intact; if all its stats
lookups failed its confidence stays at the base identifier score (count 0,
no boost), and if all its recent lookups failed it carries no history. -/
theorem C9_history_failure_soft (q : Queries) (L : Int → ℚ) (n : Str)
    (rows : List FindRow)
    (hne : Extract n ≠ [])
    (hfind : q.findPartiesByIdentifierValues ((Extract n).map (·.value)) = .ok rows)
    (hrows : rows ≠ []) :
    ∃ res, Match q L n = .ok res ∧
      ∀ r ∈ groupMatches rows, ∃ rr ∈ res,
        rr.party = r.party ∧ rr.partyIDs = r.partyIDs ∧
        rr.matchedOn = r.matchedOn ∧
        ((∀ pid ∈ r.partyIDs, q.getPartyWithTransactionCount pid = .error ()) →
          rr.confidence = calculateConfidence r.matchedOn ∧
          rr.transactionCount = 0) ∧
        ((∀ pid ∈ r.partyIDs, q.getRecentTransactionsByPartyID pid 5 = .error ()) →
          rr.recentTxns = []) := by
  refine ⟨_, Match_ok q L n rows hne hfind hrows, ?_⟩
  intro r hr
  refine ⟨enrichIdent q L r, ?_, rfl, rfl, rfl, ?_, ?_⟩
  · exact ((sortResults_perm _).mem_iff).mpr (List.mem_map_of_mem _ hr)
  · exact enrichIdent_stats_err q L r
  · exact enrichIdent_recent_err q L r

/-- Witness for `C9_history_failure_soft`: both lookups fail for every
party, yet both candidates are returned at their base confidences. -/
theorem C9_witness :
    ∃ res, Match wQ9 wL wNarr = .ok res ∧
      ∀ r ∈ groupMatches [wRowA, wRowB], ∃ rr ∈ res,
        rr.party = r.party ∧ rr.partyIDs = r.partyIDs ∧
        rr.matchedOn = r.matchedOn ∧
        ((∀ pid ∈ r.partyIDs,
            wQ9.getPartyWithTransactionCount pid = .error ()) →
          rr.confidence = calculateConfidence r.matchedOn ∧
          rr.transactionCount = 0) ∧
        ((∀ pid ∈ r.partyIDs,
            wQ9.getRecentTransactionsByPartyID pid 5 = .error ()) →
          rr.recentTxns = []) :=
  C9_history_failure_soft wQ9 wL wNarr [wRowA, wRowB]
    (by decide) rfl (by decide)

/-! ## Matcher: UPI outranks bank-name regardless of history (claim C2) -/

/-- Grouping two identifier rows with distinct party names yields exactly
the two corresponding fresh candidates, in row order. -/
theorem groupMatches_pair (rowA rowB : FindRow) (h : rowA.name ≠ rowB.name) :
    groupMatches [rowA, rowB] =
      [⟨⟨rowA.id, rowA.name, rowA.location, rowA.createdAt⟩, [rowA.id], 0,
          [⟨rowA.matchType, rowA.matchValue⟩], 0, 0, []⟩,
       ⟨⟨rowB.id, rowB.name, rowB.location, rowB.createdAt⟩, [rowB.id], 0,
          [⟨rowB.matchType, rowB.matchValue⟩], 0, 0, []⟩] := by
  unfold groupMatches groupStep
  simp [h]

/-- The aggregated count over a single id with a successful stats lookup. -/
theorem aggStats_single (q : Queries) (pid : Int) (s : StatsRow)
    (hs : q.getPartyWithTransactionCount pid = .ok s) :
    (aggStats q [pid]).1 = s.transactionCount := by
  unfold aggStats
  rw [List.foldl_cons, List.foldl_nil, aggStep_fst, hs]
  simp

/-- The boosted confidence of a bank-name-only candidate stays below 95 for
every non-negative 64-bit history count: `log10` of such a count is below
19, so the boost factor is below 2.9 and `20 · 2.9 < 95`. -/
theorem historyBoost_bank_lt (L : Int → ℚ)
    (hL19 : ∀ c : Int, 1 ≤ c → c < 2 ^ 63 → L c < 19)
    (c : Int) (hc : c < 2 ^ 63) : historyBoost L 20 c < 95 := by
  unfold historyBoost
  split
  · next hpos =>
    have h19 := hL19 c (by omega) hc
    have hlt : 20 * (1 + L c * (1 / 10)) < 95 := by nlinarith
    exact lt_of_le_of_lt (min_le_left _ _) hlt
  · norm_num

/-- The boosted confidence of a UPI-matched candidate never drops below 95:
the boost factor is at least 1 and the cap is 100. -/
theorem historyBoost_upi_ge (L : Int → ℚ)
    (hL0 : ∀ c : Int, 1 ≤ c → 0 ≤ L c) (c : Int) :
    95 ≤ historyBoost L 95 c := by
  unfold historyBoost
  split
  · next hpos =>
    have h0 := hL0 c (by omega)
    exact le_min (by nlinarith) (by norm_num)
  · exact le_refl _

/-- Sorting a two-element list whose first confidence is strictly lower
swaps the pair. -/
theorem sortPair_swap (a b : MatchResult) (h : a.confidence < b.confidence) :
    sortResultsByConfDesc [a, b] = [b, a] := by
  simp [sortResultsByConfDesc, insertResDesc, lt_asymm h]

/-- Sorting a two-element list whose first confidence is strictly higher
keeps the pair. -/
theorem sortPair_stay (a b : MatchResult) (h : b.confidence < a.confidence) :
    sortResultsByConfDesc [a, b] = [a, b] := by
  simp [sortResultsByConfDesc, insertResDesc, h]

/-- The enriched confidence of a fresh single-identifier candidate is its
identifier weight under the history boost for its aggregated count. -/
theorem enrichIdent_single_conf (q : Queries) (L : Int → ℚ) (row : FindRow)
    (s : StatsRow) (hs : q.getPartyWithTransactionCount row.id = .ok s) :
    (enrichIdent q L
        ⟨⟨row.id, row.name, row.location, row.createdAt⟩, [row.id], 0,
          [⟨row.matchType, row.matchValue⟩], 0, 0, []⟩).confidence =
      historyBoost L (identifierWeight row.matchType) s.transactionCount := by
  unfold enrichIdent
  dsimp only
  rw [calcConf_single, aggStats_single q row.id s hs]

/-- C2: whenever one candidate matched only through a bank-name identifier
and another only through a UPI handle, the UPI-matched candidate appears
before the bank-name one in `Match`'s output, for every pair of
non-negative 64-bit transaction-history counts fed to the boost
`min(confidence · (1 + log10(count)·0.1), 100)` — in either row order
returned by the store. -/
theorem C2_upi_outranks_bank (q : Queries) (L : Int → ℚ) (n : Str)
    (hL0 : ∀ c : Int, 1 ≤ c → 0 ≤ L c)
    (hL19 : ∀ c : Int, 1 ≤ c → c < 2 ^ 63 → L c < 19)
    (rowA rowB : FindRow)
    (hA : rowA.matchType = IdentifierType.bank_name.str)
    (hB : rowB.matchType = IdentifierType.upi_vpa.str)
    (hnames : rowA.name ≠ rowB.name)
    (hne : Extract n ≠ [])
    (hfind :
      q.findPartiesByIdentifierValues ((Extract n).map (·.value)) = .ok [rowA, rowB] ∨
      q.findPartiesByIdentifierValues ((Extract n).map (·.value)) = .ok [rowB, rowA])
    (sA sB : StatsRow)
    (hsA : q.getPartyWithTransactionCount rowA.id = .ok sA)
    (hsB : q.getPartyWithTransactionCount rowB.id = .ok sB)
    (hcA : sA.transactionCount < 2 ^ 63) :
    ∃ rB rA, Match q L n = .ok [rB, rA] ∧
      rB.party.name = rowB.name ∧ rA.party.name = rowA.name ∧
      rA.confidence < rB.confidence := by
  have hconfA := enrichIdent_single_conf q L rowA sA hsA
  have hconfB := enrichIdent_single_conf q L rowB sB hsB
  have hwA : identifierWeight rowA.matchType = 20 := by rw [hA, weight_bank]
  have hwB : identifierWeight rowB.matchType = 95 := by rw [hB, weight_upi]
  have hlt :
      (enrichIdent q L
        ⟨⟨rowA.id, rowA.name, rowA.location, rowA.createdAt⟩, [rowA.id], 0,
          [⟨rowA.matchType, rowA.matchValue⟩], 0, 0, []⟩).confidence <
      (enrichIdent q L
        ⟨⟨rowB.id, rowB.name, rowB.location, rowB.createdAt⟩, [rowB.id], 0,
          [⟨rowB.matchType, rowB.matchValue⟩], 0, 0, []⟩).confidence := by
    rw [hconfA, hconfB, hwA, hwB]
    exact lt_of_lt_of_le (historyBoost_bank_lt L hL19 _ hcA)
      (historyBoost_upi_ge L hL0 _)
  rcases hfind with hf | hf
  · have hm := Match_ok q L n [rowA, rowB] hne hf (by simp)
    rw [groupMatches_pair rowA rowB hnames] at hm
    simp only [List.map_cons, List.map_nil] at hm
    rw [sortPair_swap _ _ hlt] at hm
    exact ⟨_, _, hm, rfl, rfl, hlt⟩
  · have hm := Match_ok q L n [rowB, rowA] hne hf (by simp)
    rw [groupMatches_pair rowB rowA (Ne.symm hnames)] at hm
    simp only [List.map_cons, List.map_nil] at hm
    rw [sortPair_stay _ _ hlt] at hm
    exact ⟨_, _, hm, rfl, rfl, hlt⟩

/-- Witness for `C2_upi_outranks_bank` at concrete rows, zero history
counts and the zero logarithm model. -/
theorem C2_witness :
    ∃ rB rA, Match wQ2 wL wNarr = .ok [rB, rA] ∧
      rB.party.name = wRowB.name ∧ rA.party.name = wRowA.name ∧
      rA.confidence < rB.confidence :=
  C2_upi_outranks_bank wQ2 wL wNarr
    (fun _ _ => le_refl 0) (fun _ _ _ => by norm_num [wL])
    wRowA wRowB rfl rfl (by decide) (by decide)
    (Or.inl rfl) wStatsA wStatsB rfl rfl (by decide)

end S2P
